import Mathlib

/-!
# GNU findutils, `find/util.c`: a shallow embedding and its properties

The C globals `state`, `options` and `errno` are threaded explicitly as a
`Machine`.  Everything the program does to the outside world (the `stat` and
`lstat` system calls, diagnostics printed by `error`, launched commands) is
appended to `Machine.trace`; the answers of the outside world come from a
`Kernel`, an oracle that may depend on the whole history of the run, so that
a file may change or vanish between two queries.

Conventions.
* `const char *` values are Lean strings; a C string holds no NUL byte.
* `int` values are `Int`; no arithmetic in this file can overflow (the only
  arithmetic is the loop counter of `process_leading_options`, bounded by
  `argc`).
* A function pointer is the tag of the function it points to.
* The embedding is of the build with `NEW_EXEC` defined and `DEBUG`,
  `DEBUG_STAT` undefined.
-/

set_option linter.unusedVariables false

namespace FindUtil

/-! ## Data model -/

/-- The C type `struct stat`: the `st_mode` field, and the remaining fields
kept as an uninterpreted list. -/
structure struct_stat where
  st_mode : Nat
  st_rest : List Nat
deriving DecidableEq, Repr

/-- Values of `errno` used by `fallback_stat` and `get_statinfo` (the Linux
numbering of `<errno.h>`). -/
def ENOENT : Nat := 2
def EIO : Nat := 5
def EACCES : Nat := 13
def ENOTDIR : Nat := 20
def ENAMETOOLONG : Nat := 36
def ELOOP : Nat := 40
def EOVERFLOW : Nat := 75

/-- The C type `enum SymlinkOption`.  A C enum object can hold a value that is
none of its enumerators; `unrecognised` stands for those. -/
inductive SymlinkOption where
  | SYMLINK_NEVER_DEREF
  | SYMLINK_ALWAYS_DEREF
  | SYMLINK_DEREF_ARGSONLY
  | unrecognised (raw : Nat)
deriving DecidableEq, Repr

/-- The functions `options.xstat` can point to. -/
inductive XStat where
  | optionl_stat
  | optionh_stat
  | optionp_stat
deriving DecidableEq, Repr

/-- What the program does to the outside world, in the order it happens.
`xstat name rv` is bookkeeping: a call through the pointer `options.xstat`
on `name` has returned `rv`. -/
inductive Event where
  | stat (name : String)
  | lstat (name : String)
  | xstat (name : String) (rv : Int)
  | error (errnum : Nat) (message : String)
  | launch (ctl : Nat) (cmd_argv : List String)
deriving DecidableEq, Repr

/-- What a `stat`/`lstat` system call leaves behind: its return value, the
contents of the caller's buffer and the value of `errno`. -/
structure SysRet where
  rv : Int
  buf : struct_stat
  errno : Nat

/-- The C type `struct buildcmd_state`: `todo` and the arguments collected so
far. -/
structure buildcmd_state where
  todo : Bool
  cmd_argv : List String
deriving DecidableEq, Repr

/-- What a call of the external function `launch` leaves behind: its return
value, the contents of the `buildcmd_state` it was handed and the value of
`state.exit_status`. -/
structure LaunchRet where
  rv : Int
  state : buildcmd_state
  exit_status : Int

/-- The outside world.  Each answer may depend on everything that happened so
far, on the arguments, and on the buffer and `errno` as they were before the
call; no relation between return value, buffer and `errno` is assumed.
`launch` is the behaviour of the function `launch`, which is defined outside
`util.c`: it is handed the address of a control block and a `buildcmd_state`,
and knows `state.exit_status`. -/
structure Kernel where
  stat : List Event → String → struct_stat → Nat → SysRet
  lstat : List Event → String → struct_stat → Nat → SysRet
  launch : List Event → Nat → buildcmd_state → Int → LaunchRet

/-- The fields of the global `state` that `util.c` reads or writes. -/
structure State where
  have_stat : Bool
  have_type : Bool
  type : Nat
  curdepth : Int
  rel_pathname : String
  exit_status : Int
deriving DecidableEq, Repr

/-- The fields of the global `options` that `util.c` reads or writes. -/
structure Options where
  ignore_readdir_race : Bool
  symlink_handling : SymlinkOption
  xstat : XStat
deriving DecidableEq, Repr

/-- The globals of the process together with the history of its effects. -/
structure Machine where
  state : State
  options : Options
  errno : Nat
  trace : List Event
deriving DecidableEq, Repr

/-- The C type `struct exec_val`; `ctl` is the address of the control block
holding the command template. -/
structure exec_val where
  multiple : Bool
  ctl : Nat
  state : buildcmd_state
deriving DecidableEq, Repr

/-- The predicate functions `util.c` compares `pred_func` with, and all the
others. -/
inductive PRED_FUNC where
  | pred_exec
  | pred_execdir
  | pred_ok
  | pred_okdir
  | pred_other (id : Nat)
deriving DecidableEq, Repr

/-- The fields of one `struct predicate` other than its links.  `exec_vec` is
the member `args.exec_vec` of the union `args`; the code reads it only for
exec-family predicates. -/
structure pred_node where
  pred_func : PRED_FUNC
  need_stat : Bool
  need_type : Bool
  no_default_print : Bool
  exec_vec : exec_val
deriving DecidableEq, Repr

/-- The C type `struct predicate *` seen through `pred_left` and `pred_right`:
a null pointer or a node with two subtrees. -/
inductive predicate where
  | NULL
  | node (self : pred_node) (pred_left pred_right : predicate)
deriving DecidableEq, Repr

/-! ## System calls and `error` -/

/-- The system call `stat(name, p)`. -/
def sys_stat (k : Kernel) (name : String) (p : struct_stat) (m : Machine) :
    Int × struct_stat × Machine :=
  let r := k.stat m.trace name p m.errno
  (r.rv, r.buf, { m with errno := r.errno, trace := m.trace ++ [Event.stat name] })

/-- The system call `lstat(name, p)`. -/
def sys_lstat (k : Kernel) (name : String) (p : struct_stat) (m : Machine) :
    Int × struct_stat × Machine :=
  let r := k.lstat m.trace name p m.errno
  (r.rv, r.buf, { m with errno := r.errno, trace := m.trace ++ [Event.lstat name] })

/-- The library call `error (0, errnum, "%s", message)`: with status 0 it
prints a diagnostic and returns. -/
def error (errnum : Nat) (message : String) (m : Machine) : Machine :=
  { m with trace := m.trace ++ [Event.error errnum message] }

/-! ## The three `stat` strategies (util.c lines 291-374) -/

/-- Embedding of `fallback_stat`. -/
def fallback_stat (k : Kernel) (name : String) (p : struct_stat) (prev_rv : Int)
    (m : Machine) : Int × struct_stat × Machine :=
  if m.errno = ENOENT ∨ m.errno = ENOTDIR then
    sys_lstat k name p m
  else if m.errno = EACCES ∨ m.errno = EIO ∨ m.errno = ELOOP
      ∨ m.errno = ENAMETOOLONG ∨ m.errno = EOVERFLOW then
    (prev_rv, p, m)
  else
    (prev_rv, p, m)

/-- Embedding of `optionh_stat`. -/
def optionh_stat (k : Kernel) (name : String) (p : struct_stat) (m : Machine) :
    Int × struct_stat × Machine :=
  if 0 = m.state.curdepth then
    match sys_stat k name p m with
    | (rv, p1, m1) => if 0 = rv then (0, p1, m1) else fallback_stat k name p1 rv m1
  else
    sys_lstat k name p m

/-- Embedding of `optionl_stat`. -/
def optionl_stat (k : Kernel) (name : String) (p : struct_stat) (m : Machine) :
    Int × struct_stat × Machine :=
  match sys_stat k name p m with
  | (rv, p1, m1) => if 0 = rv then (0, p1, m1) else fallback_stat k name p1 rv m1

/-- Embedding of `optionp_stat`. -/
def optionp_stat (k : Kernel) (name : String) (p : struct_stat) (m : Machine) :
    Int × struct_stat × Machine :=
  sys_lstat k name p m

/-- The call `(*options.xstat) (name, p)`: dispatch on the pointer, then note
the returned value in the trace. -/
def call_xstat (k : Kernel) (name : String) (p : struct_stat) (m : Machine) :
    Int × struct_stat × Machine :=
  match (match m.options.xstat with
    | XStat.optionl_stat => optionl_stat k name p m
    | XStat.optionh_stat => optionh_stat k name p m
    | XStat.optionp_stat => optionp_stat k name p m) with
  | (rv, p1, m1) => (rv, p1, { m1 with trace := m1.trace ++ [Event.xstat name rv] })

/-- Embedding of `following_links`. -/
def following_links (m : Machine) : Int × Machine :=
  match m.options.symlink_handling with
  | SymlinkOption.SYMLINK_ALWAYS_DEREF => (1, m)
  | SymlinkOption.SYMLINK_DEREF_ARGSONLY => (if m.state.curdepth = 0 then 1 else 0, m)
  | SymlinkOption.SYMLINK_NEVER_DEREF => (0, m)
  | SymlinkOption.unrecognised _ => (0, m)

/-! ## The status cache (util.c lines 121-162) -/

/-- Embedding of `get_statinfo`.  When `state.have_stat` is set the condition
of the `if` is false without calling `options.xstat`, and control reaches the
three assignments after it. -/
def get_statinfo (k : Kernel) (pathname name : String) (p : struct_stat) (m : Machine) :
    Int × struct_stat × Machine :=
  if m.state.have_stat then
    (0, p, { m with state := { m.state with
      have_stat := true, have_type := true, type := p.st_mode } })
  else
    match call_xstat k name p m with
    | (rv, p1, m1) =>
      if rv ≠ 0 then
        if !m1.options.ignore_readdir_race || m1.errno != ENOENT then
          let m2 := error m1.errno pathname m1
          (-1, p1, { m2 with state := { m2.state with exit_status := 1 } })
        else
          (-1, p1, m1)
      else
        (0, p1, { m1 with state := { m1.state with
          have_stat := true, have_type := true, type := p1.st_mode } })

/-- Embedding of `get_info`. -/
def get_info (k : Kernel) (pathname name : String) (p : struct_stat)
    (pred_ptr : pred_node) (m : Machine) : Int × struct_stat × Machine :=
  if pred_ptr.need_stat then
    get_statinfo k pathname m.state.rel_pathname p m
  else if pred_ptr.need_type && (m.state.have_type == false) then
    get_statinfo k pathname m.state.rel_pathname p m
  else
    (0, p, m)

/-- The macros `S_IFMT` and `S_IFLNK` of `<sys/stat.h>` (the Linux values). -/
def S_IFMT : Nat := 0o170000
def S_IFLNK : Nat := 0o120000

/-- The macro `S_ISLNK (mode)` of `<sys/stat.h>`. -/
def S_ISLNK (mode : Nat) : Bool :=
  (mode &&& S_IFMT) == S_IFLNK

/-- Embedding of `digest_mode`.  `following_links ()` is evaluated only when
`S_ISLNK (mode)` holds; it has no effect on the machine. -/
def digest_mode (k : Kernel) (mode : Nat) (pathname name : String) (pstat : struct_stat)
    (leaf : Bool) (m : Machine) : Int × struct_stat × Machine :=
  if mode ≠ 0 then
    if S_ISLNK mode = true ∧ (following_links m).1 ≠ 0 then
      match get_statinfo k pathname name pstat m with
      | (rv, p1, m1) =>
        if rv ≠ 0 then
          (0, p1, m1)
        else
          (1, p1, { m1 with state := { m1.state with type := p1.st_mode, have_type := true } })
    else
      (1, { pstat with st_mode := mode },
        { m with state := { m.state with have_type := true, type := mode } })
  else
    if leaf then
      (1, pstat, { m with state := { m.state with
        have_stat := false, have_type := false, type := 0 } })
    else
      match get_statinfo k pathname name pstat m with
      | (rv, p1, m1) =>
        if rv ≠ 0 then
          (0, p1, m1)
        else
          (1, p1, { m1 with state := { m1.state with type := p1.st_mode, have_type := true } })

/-! ## The default action (util.c lines 473-487) -/

/-- Embedding of `default_prints`.  The argument is a `struct predicate *` seen
through `pred_next`: the empty list is the null pointer, `pred :: rest` a node
whose `pred_next` is `rest`. -/
def default_prints : List pred_node → Bool
  | [] => true
  | pred :: pred_next => if pred.no_default_print then false else default_prints pred_next

/-! ## Flushing pending commands (util.c lines 197-288) -/

/-- The call `launch (&execp->ctl, &execp->state)`.  The function `launch` is
defined outside `util.c`, so its behaviour is a parameter, the kernel's
`launch`: it may write the `buildcmd_state` it is handed and
`state.exit_status`.  The trace records the control block and the arguments
pending at the call. -/
def launch (k : Kernel) (ctl : Nat) (st : buildcmd_state) (m : Machine) :
    Int × buildcmd_state × Machine :=
  let r := k.launch m.trace ctl st m.state.exit_status
  (r.rv, r.state,
    { m with state := { m.state with exit_status := r.exit_status },
             trace := m.trace ++ [Event.launch ctl st.cmd_argv] })

/-- Modelled from the spec: the function `launch`, which is defined outside
`util.c`.  The external launcher receives the command template and the
pending arguments and reports success or failure, which only updates the
process-wide exit status (set on failure, never cleared); whether the launch
succeeded or failed, the pending arguments and the pending-work flag `todo`
are cleared afterwards.  `child_ok` says whether the launched command
succeeds. -/
def spec_launch (child_ok : List Event → Nat → List String → Bool) (tr : List Event)
    (ctl : Nat) (st : buildcmd_state) (exit_status : Int) : LaunchRet :=
  if child_ok tr ctl st.cmd_argv then
    { rv := 0, state := { todo := false, cmd_argv := [] }, exit_status := exit_status }
  else
    { rv := -1, state := { todo := false, cmd_argv := [] }, exit_status := 1 }

/-- The world `k` with `launch` behaving as modelled from the spec. -/
def with_spec_launch (k : Kernel) (child_ok : List Event → Nat → List String → Bool) :
    Kernel :=
  { stat := k.stat, lstat := k.lstat, launch := spec_launch child_ok }

/-- The block shared by both walks: with `execp = &p->args.exec_vec`,
`if (execp->state.todo) launch (&execp->ctl, &execp->state);`. -/
def launch_if_todo (k : Kernel) (self : pred_node) (m : Machine) : pred_node × Machine :=
  if self.exec_vec.state.todo then
    match launch k self.exec_vec.ctl self.exec_vec.state m with
    | (_, st, m1) => ({ self with exec_vec := { self.exec_vec with state := st } }, m1)
  else
    (self, m)

/-- Embedding of `complete_pending_execdirs`.  The tree is returned because
`launch` writes to the `exec_val` of the node it is called on. -/
def complete_pending_execdirs (k : Kernel) : predicate → Machine → predicate × Machine
  | predicate.NULL, m => (predicate.NULL, m)
  | predicate.node self pred_left pred_right, m =>
    match complete_pending_execdirs k pred_left m with
    | (l1, m1) =>
      match (if self.pred_func = PRED_FUNC.pred_execdir
                ∨ self.pred_func = PRED_FUNC.pred_okdir then
              if self.exec_vec.multiple then launch_if_todo k self m1 else (self, m1)
            else (self, m1)) with
      | (self1, m2) =>
        match complete_pending_execdirs k pred_right m2 with
        | (r1, m3) => (predicate.node self1 l1 r1, m3)

/-- Embedding of `complete_pending_execs`. -/
def complete_pending_execs (k : Kernel) : predicate → Machine → predicate × Machine
  | predicate.NULL, m => (predicate.NULL, m)
  | predicate.node self pred_left pred_right, m =>
    match complete_pending_execs k pred_left m with
    | (l1, m1) =>
      match (if self.pred_func = PRED_FUNC.pred_exec ∧ self.exec_vec.multiple = true then
              launch_if_todo k self m1
            else (self, m1)) with
      | (self1, m2) =>
        match complete_pending_execs k pred_right m2 with
        | (r1, m3) => (predicate.node self1 l1 r1, m3)

/-- Embedding of `cleanup`; `eval_tree` is the value returned by
`get_eval_tree ()`. -/
def cleanup (k : Kernel) (eval_tree : predicate) (m : Machine) : predicate × Machine :=
  match eval_tree with
  | predicate.NULL => (predicate.NULL, m)
  | predicate.node self pred_left pred_right =>
    match complete_pending_execs k (predicate.node self pred_left pred_right) m with
    | (t1, m1) => complete_pending_execdirs k t1 m1

/-! ## The command line (util.c lines 489-562) -/

/-- The NUL byte that ends a C string. -/
def NUL : Char := Char.ofNat 0

/-- The byte `arg[i]` of the C string `arg`, for `i` up to its length: the
byte at `i = length` is the terminating NUL. -/
def char_at (arg : String) (i : Nat) : Char := arg.toList.getD i NUL

/-- Embedding of `looks_like_expression`. -/
def looks_like_expression (arg : String) (leading : Bool) : Bool :=
  if char_at arg 0 = '-' then
    if char_at arg 1 ≠ NUL then true else false
  else if char_at arg 0 = ')' ∨ char_at arg 0 = ',' then
    if char_at arg 1 ≠ NUL then false else !leading
  else if char_at arg 0 = '!' ∨ char_at arg 0 = '(' then
    if char_at arg 1 ≠ NUL then false else true
  else
    false

/-- The library function `strcmp`; only the sign of its result is defined by
the C standard. -/
def strcmp (a b : String) : Int :=
  if a = b then 0 else if a < b then -1 else 1

/-- Modelled from the spec: `set_follow_state`, which is defined outside
`util.c`.  It makes `opt` the active symlink policy, and the policy determines
which of the three `stat` strategies is active. -/
def set_follow_state (opt : SymlinkOption) (m : Machine) : Machine :=
  { m with options := { m.options with
      symlink_handling := opt,
      xstat := match opt with
        | SymlinkOption.SYMLINK_ALWAYS_DEREF => XStat.optionl_stat
        | SymlinkOption.SYMLINK_DEREF_ARGSONLY => XStat.optionh_stat
        | SymlinkOption.SYMLINK_NEVER_DEREF => XStat.optionp_stat
        | SymlinkOption.unrecognised _ => m.options.xstat } }

/-- The `for` loop of `process_leading_options`, entered with loop counter `i`;
`argc` is the number of entries of `argv`.  The result is the value of
`end_of_leading_options` when the loop is left. -/
def process_leading_options_loop (argv : List String) (i : Nat) (m : Machine) :
    Nat × Machine :=
  if h : i < argv.length then
    if 0 = strcmp "-H" argv[i] then
      process_leading_options_loop argv (i + 1)
        (set_follow_state SymlinkOption.SYMLINK_DEREF_ARGSONLY m)
    else if 0 = strcmp "-L" argv[i] then
      process_leading_options_loop argv (i + 1)
        (set_follow_state SymlinkOption.SYMLINK_ALWAYS_DEREF m)
    else if 0 = strcmp "-P" argv[i] then
      process_leading_options_loop argv (i + 1)
        (set_follow_state SymlinkOption.SYMLINK_NEVER_DEREF m)
    else if 0 = strcmp "--" argv[i] then
      (i + 1, m)
    else
      (i, m)
  else
    (i, m)
termination_by argv.length - i

/-- Embedding of `process_leading_options (argc, argv)` with
`argc = argv.length`. -/
def process_leading_options (argv : List String) (m : Machine) : Nat × Machine :=
  process_leading_options_loop argv 1 m

/-! ## Observations and example data used to state the properties -/

/-- The values returned by the calls through `options.xstat` recorded in a
trace, oldest first; its length is the number of such calls. -/
def xstat_results (tr : List Event) : List Int :=
  tr.filterMap fun e => match e with
    | Event.xstat _ rv => some rv
    | _ => none

/-- The commands launched in a trace, oldest first. -/
def launches (tr : List Event) : List (Nat × List String) :=
  tr.filterMap fun e => match e with
    | Event.launch ctl cmd_argv => some (ctl, cmd_argv)
    | _ => none

/-- The arguments of one call of `get_info`. -/
structure info_call where
  pathname : String
  name : String
  p : struct_stat
  pred_ptr : pred_node

/-- A finite sequence of `get_info` calls, run one after the other. -/
def get_info_seq (k : Kernel) : List info_call → Machine → Machine
  | [], m => m
  | c :: cs, m => get_info_seq k cs (get_info k c.pathname c.name c.p c.pred_ptr m).2.2

/-- A world in which every `stat` and `lstat` fails with `ENOENT`, and every
launched command succeeds. -/
def kernel_enoent : Kernel :=
  { stat := fun _ _ p _ => { rv := -1, buf := p, errno := ENOENT },
    lstat := fun _ _ p _ => { rv := -1, buf := p, errno := ENOENT },
    launch := spec_launch (fun _ _ _ => true) }

/-- A world in which `stat` fails with `EACCES` and `lstat` succeeds, reporting
mode 0o120777 (a symbolic link); every launched command fails. -/
def kernel_eacces : Kernel :=
  { stat := fun _ _ p _ => { rv := -1, buf := p, errno := EACCES },
    lstat := fun _ _ _ e => { rv := 0, buf := { st_mode := 41471, st_rest := [] }, errno := e },
    launch := spec_launch (fun _ _ _ => false) }

/-- A status buffer with mode 0o100644 (a regular file). -/
def buf_regular : struct_stat := { st_mode := 33188, st_rest := [] }

/-- A status buffer with mode 0o040755 (a directory). -/
def buf_directory : struct_stat := { st_mode := 16877, st_rest := [] }

/-- A machine at the start of an entry lifetime: reset cache, depth 0,
policy `-P`, nothing done yet. -/
def machine_reset : Machine :=
  { state := { have_stat := false, have_type := false, type := 0, curdepth := 0,
               rel_pathname := "f", exit_status := 0 },
    options := { ignore_readdir_race := false,
                 symlink_handling := SymlinkOption.SYMLINK_NEVER_DEREF,
                 xstat := XStat.optionp_stat },
    errno := 0,
    trace := [] }

/-- A machine whose cache holds the status of a regular file. -/
def machine_cached : Machine :=
  { machine_reset with state := { machine_reset.state with
      have_stat := true, have_type := true, type := 33188 } }

/-- A predicate that needs the full status, such as `-size`. -/
def pred_needs_stat : pred_node :=
  { pred_func := PRED_FUNC.pred_other 0, need_stat := true, need_type := false,
    no_default_print := false,
    exec_vec := { multiple := false, ctl := 0, state := { todo := false, cmd_argv := [] } } }

/-- One call of `get_info` for a predicate that needs the full status. -/
def call_needs_stat : info_call :=
  { pathname := "./f", name := "f", p := buf_regular, pred_ptr := pred_needs_stat }

/-! ## Observations on predicate trees -/

/-- The nodes of a tree in the order left subtree, node, right subtree. -/
def nodes : predicate → List pred_node
  | predicate.NULL => []
  | predicate.node self pred_left pred_right => nodes pred_left ++ self :: nodes pred_right

/-- A `pred_exec` node in batch mode with arguments waiting. -/
def pending_exec (n : pred_node) : Bool :=
  decide (n.pred_func = PRED_FUNC.pred_exec) && n.exec_vec.multiple && n.exec_vec.state.todo

/-- A `pred_execdir` or `pred_okdir` node in batch mode with arguments
waiting. -/
def pending_execdir (n : pred_node) : Bool :=
  (decide (n.pred_func = PRED_FUNC.pred_execdir) || decide (n.pred_func = PRED_FUNC.pred_okdir))
    && n.exec_vec.multiple && n.exec_vec.state.todo

/-- A batch-mode exec-family node (`pred_exec`, `pred_execdir` or `pred_okdir`
with `multiple` set) whose `state.todo` is true. -/
def pending_batch (n : pred_node) : Bool :=
  (decide (n.pred_func = PRED_FUNC.pred_exec) || decide (n.pred_func = PRED_FUNC.pred_execdir)
      || decide (n.pred_func = PRED_FUNC.pred_okdir))
    && n.exec_vec.multiple && n.exec_vec.state.todo

/-- The launch of a node as it appears in the trace: the address of its
control block and its pending arguments. -/
def launch_of (n : pred_node) : Nat × List String :=
  (n.exec_vec.ctl, n.exec_vec.state.cmd_argv)

/-- The step `complete_pending_execs` performs at one node. -/
def exec_step (k : Kernel) (self : pred_node) (m : Machine) : pred_node × Machine :=
  if self.pred_func = PRED_FUNC.pred_exec ∧ self.exec_vec.multiple = true then
    launch_if_todo k self m
  else (self, m)

/-- The step `complete_pending_execdirs` performs at one node. -/
def execdir_step (k : Kernel) (self : pred_node) (m : Machine) : pred_node × Machine :=
  if self.pred_func = PRED_FUNC.pred_execdir ∨ self.pred_func = PRED_FUNC.pred_okdir then
    if self.exec_vec.multiple then launch_if_todo k self m else (self, m)
  else (self, m)

/-- A predicate node with the given function, batch flag, control block,
pending-work flag and pending arguments. -/
def exec_node (f : PRED_FUNC) (multiple : Bool) (ctl : Nat) (todo : Bool)
    (cmd_argv : List String) : pred_node :=
  { pred_func := f, need_stat := false, need_type := false, no_default_print := true,
    exec_vec := { multiple := multiple, ctl := ctl,
                  state := { todo := todo, cmd_argv := cmd_argv } } }

/-- A tree with two operator nodes and three exec-family leaves: a batch-mode
`-exec` and a batch-mode `-execdir`, both with arguments waiting, and an
`-exec` that is not in batch mode. -/
def tree_example : predicate :=
  predicate.node (exec_node (PRED_FUNC.pred_other 1) false 0 false [])
    (predicate.node (exec_node PRED_FUNC.pred_exec true 100 true ["a", "x", "y"])
      predicate.NULL predicate.NULL)
    (predicate.node (exec_node (PRED_FUNC.pred_other 1) false 0 false [])
      (predicate.node (exec_node PRED_FUNC.pred_execdir true 200 true ["b", "z"])
        predicate.NULL predicate.NULL)
      (predicate.node (exec_node PRED_FUNC.pred_exec false 300 false ["c"])
        predicate.NULL predicate.NULL))

/-! ## The command-line scanner in the words of the specification -/

/-- One of the three flag tokens `-H`, `-L`, `-P`. -/
def is_policy_flag (t : String) : Bool :=
  t == "-H" || t == "-L" || t == "-P"

/-- The policy a flag token names: `-H` dereferences command-line arguments
only, `-L` always dereferences, `-P` never does. -/
def policy_of_flag (t : String) : SymlinkOption :=
  if t = "-H" then SymlinkOption.SYMLINK_DEREF_ARGSONLY
  else if t = "-L" then SymlinkOption.SYMLINK_ALWAYS_DEREF
  else SymlinkOption.SYMLINK_NEVER_DEREF

/-- The position, counted from 0 in `args`, of the first token that is not a
flag: the length of the maximal leading run of flags. -/
def first_non_flag (args : List String) : Nat :=
  (args.takeWhile is_policy_flag).length

/-- The resume index of `scan_leading_policy_flags`, counted from 0 in `args`:
with `k` the position of the first token that is not a flag, `k` if that
token is not `--`, `k + 1` if it is, and the length of `args` if every token
is a flag. -/
def spec_resume_index (args : List String) : Nat :=
  match args[first_non_flag args]? with
  | none => args.length
  | some t => if t = "--" then first_non_flag args + 1 else first_non_flag args

/-- The policy after `scan_leading_policy_flags`: the one named by the last
flag of the maximal leading run of flags, and `initial` when that run is
empty. -/
def spec_policy (initial : SymlinkOption) (args : List String) : SymlinkOption :=
  match (args.takeWhile is_policy_flag).getLast? with
  | none => initial
  | some t => policy_of_flag t

/-- The machine after `set_follow_state` has been called for each token of a
list of flags in turn. -/
def apply_flags (flags : List String) (m : Machine) : Machine :=
  flags.foldl (fun acc t => set_follow_state (policy_of_flag t) acc) m

/-! ## The cache invariant -/

/-- The invariant of the status cache: `have_stat` implies `have_type`. -/
def cache_inv (m : Machine) : Prop :=
  m.state.have_stat = true → m.state.have_type = true

/-- A predicate that does not suppress the default action, such as `-name`. -/
def pred_plain : pred_node :=
  { pred_func := PRED_FUNC.pred_other 2, need_stat := false, need_type := false,
    no_default_print := false,
    exec_vec := { multiple := false, ctl := 0, state := { todo := false, cmd_argv := [] } } }

/-- A world in which `stat` and `lstat` succeed and report a directory. -/
def kernel_directory : Kernel :=
  { stat := fun _ _ _ e => { rv := 0, buf := { st_mode := 16877, st_rest := [] }, errno := e },
    lstat := fun _ _ _ e => { rv := 0, buf := { st_mode := 16877, st_rest := [] }, errno := e },
    launch := spec_launch (fun _ _ _ => true) }

/-- The machine `machine_reset` with `options.ignore_readdir_race` set. -/
def machine_tolerant : Machine :=
  { machine_reset with options := { machine_reset.options with
      ignore_readdir_race := true } }

/-! ## Properties of the `stat` strategies -/

/-- C2: when the `stat` made by `optionl_stat` fails, then (a) if it left
`errno` equal to `ENOENT` or `ENOTDIR`, the value, buffer and machine returned
are exactly those of one `lstat` on the same name, issued after the failed
`stat`, and the system calls made are that `stat` followed by that `lstat`;
(b) for every other value of `errno` the value, buffer and `errno` of the
failed `stat` are returned unchanged and the only event added to the trace is
the `stat` itself, so no `lstat` is made. -/
theorem optionl_stat_fallback_rule (k : Kernel) (name : String) (p : struct_stat)
    (m : Machine) (hfail : (sys_stat k name p m).1 ≠ 0) :
    (((sys_stat k name p m).2.2.errno = ENOENT ∨ (sys_stat k name p m).2.2.errno = ENOTDIR) →
      optionl_stat k name p m
          = sys_lstat k name (sys_stat k name p m).2.1 (sys_stat k name p m).2.2
        ∧ (optionl_stat k name p m).2.2.trace
          = m.trace ++ [Event.stat name, Event.lstat name])
    ∧ (¬((sys_stat k name p m).2.2.errno = ENOENT
          ∨ (sys_stat k name p m).2.2.errno = ENOTDIR) →
      optionl_stat k name p m = sys_stat k name p m
        ∧ (optionl_stat k name p m).2.2.errno = (sys_stat k name p m).2.2.errno
        ∧ (optionl_stat k name p m).2.2.trace = m.trace ++ [Event.stat name]) := by
  have hne : ¬ (0 = (sys_stat k name p m).1) := fun h => hfail h.symm
  constructor
  · intro he
    have hres : optionl_stat k name p m
        = sys_lstat k name (sys_stat k name p m).2.1 (sys_stat k name p m).2.2 := by
      simp only [optionl_stat, fallback_stat, hne, he, if_true, if_false]
    refine ⟨hres, ?_⟩
    rw [hres]
    simp [sys_lstat, sys_stat]
  · intro he
    have hres : optionl_stat k name p m = sys_stat k name p m := by
      simp only [optionl_stat, fallback_stat, hne, he, if_false, ite_self]
    refine ⟨hres, by rw [hres], ?_⟩
    rw [hres]
    simp [sys_stat]

/-- C2 witness: in a world where `stat` fails with `ENOENT`, `optionl_stat`
returns what the `lstat` issued after it returns; in a world where `stat`
fails with `EACCES` (and `lstat` would succeed), `optionl_stat` returns the
failure of `stat` and makes no `lstat`. -/
theorem optionl_stat_fallback_rule_witness :
    (sys_stat kernel_enoent "f" buf_regular machine_reset).1 ≠ 0
    ∧ optionl_stat kernel_enoent "f" buf_regular machine_reset
        = sys_lstat kernel_enoent "f"
            (sys_stat kernel_enoent "f" buf_regular machine_reset).2.1
            (sys_stat kernel_enoent "f" buf_regular machine_reset).2.2
    ∧ (optionl_stat kernel_enoent "f" buf_regular machine_reset).2.2.trace
        = [Event.stat "f", Event.lstat "f"]
    ∧ (sys_stat kernel_eacces "f" buf_regular machine_reset).1 ≠ 0
    ∧ optionl_stat kernel_eacces "f" buf_regular machine_reset
        = sys_stat kernel_eacces "f" buf_regular machine_reset
    ∧ (optionl_stat kernel_eacces "f" buf_regular machine_reset).2.2.errno = EACCES
    ∧ (optionl_stat kernel_eacces "f" buf_regular machine_reset).2.2.trace
        = [Event.stat "f"] :=
  ⟨by decide,
   ((optionl_stat_fallback_rule kernel_enoent "f" buf_regular machine_reset
      (by decide)).1 (by decide)).1,
   ((optionl_stat_fallback_rule kernel_enoent "f" buf_regular machine_reset
      (by decide)).1 (by decide)).2,
   by decide,
   ((optionl_stat_fallback_rule kernel_eacces "f" buf_regular machine_reset
      (by decide)).2 (by decide)).1,
   ((optionl_stat_fallback_rule kernel_eacces "f" buf_regular machine_reset
      (by decide)).2 (by decide)).2.1,
   ((optionl_stat_fallback_rule kernel_eacces "f" buf_regular machine_reset
      (by decide)).2 (by decide)).2.2⟩

/-- C8: `optionh_stat` returns the same value, buffer and machine (so the same
`errno` and the same sequence of system calls) as `optionl_stat` when
`state.curdepth` is 0, and the same as `optionp_stat`, a single `lstat`
without fallback, when it is not. -/
theorem optionh_stat_depth_switch (k : Kernel) (name : String) (p : struct_stat)
    (m : Machine) :
    optionh_stat k name p m
        = (if m.state.curdepth = 0 then optionl_stat k name p m
           else optionp_stat k name p m)
    ∧ optionp_stat k name p m
        = ((k.lstat m.trace name p m.errno).rv, (k.lstat m.trace name p m.errno).buf,
            { m with errno := (k.lstat m.trace name p m.errno).errno,
                     trace := m.trace ++ [Event.lstat name] }) := by
  constructor
  · by_cases h : m.state.curdepth = 0
    · rw [if_pos h]
      unfold optionh_stat optionl_stat
      rw [if_pos h.symm]
    · rw [if_neg h]
      unfold optionh_stat optionp_stat
      rw [if_neg (fun e => h e.symm)]
  · rfl

/-- C9: `following_links` returns 1 for `SYMLINK_ALWAYS_DEREF` at every depth,
for `SYMLINK_DEREF_ARGSONLY` it returns 1 when `state.curdepth` is 0 and 0
otherwise, and it returns 0 for `SYMLINK_NEVER_DEREF` and for every
unrecognised value at every depth; it leaves the machine (globals, `errno`
and trace) exactly as it was. -/
theorem following_links_table (st : State) (o : Options) (e : Nat) (tr : List Event)
    (d : Int) (raw : Nat) :
    (following_links
        { state := { st with curdepth := d },
          options := { o with symlink_handling := SymlinkOption.SYMLINK_ALWAYS_DEREF },
          errno := e, trace := tr }).1 = 1
    ∧ ((following_links
        { state := { st with curdepth := d },
          options := { o with symlink_handling := SymlinkOption.SYMLINK_DEREF_ARGSONLY },
          errno := e, trace := tr }).1 = 1 ↔ d = 0)
    ∧ ((following_links
        { state := { st with curdepth := d },
          options := { o with symlink_handling := SymlinkOption.SYMLINK_DEREF_ARGSONLY },
          errno := e, trace := tr }).1 = 0 ↔ d ≠ 0)
    ∧ (following_links
        { state := { st with curdepth := d },
          options := { o with symlink_handling := SymlinkOption.SYMLINK_NEVER_DEREF },
          errno := e, trace := tr }).1 = 0
    ∧ (following_links
        { state := { st with curdepth := d },
          options := { o with symlink_handling := SymlinkOption.unrecognised raw },
          errno := e, trace := tr }).1 = 0
    ∧ (following_links { state := st, options := o, errno := e, trace := tr }).2
        = { state := st, options := o, errno := e, trace := tr } := by
  refine ⟨rfl, ?_, ?_, rfl, rfl, ?_⟩
  · by_cases h : d = 0 <;> simp [following_links, h]
  · by_cases h : d = 0 <;> simp [following_links, h]
  · cases hsl : o.symlink_handling <;> simp [following_links, hsl]

/-! ## Lemmas on the tree walks -/

theorem launches_append (a b : List Event) :
    launches (a ++ b) = launches a ++ launches b := by
  simp [launches]

theorem launch_launches (k : Kernel) (ctl : Nat) (st : buildcmd_state) (m : Machine) :
    launches (launch k ctl st m).2.2.trace = launches m.trace ++ [(ctl, st.cmd_argv)] := by
  simp [launch, launches_append, launches]

theorem launch_if_todo_launches (k : Kernel) (n : pred_node) (m : Machine) :
    launches (launch_if_todo k n m).2.trace
      = launches m.trace ++ if n.exec_vec.state.todo = true then [launch_of n] else [] := by
  unfold launch_if_todo
  split_ifs
  · simp only [launch_launches, launch_of]
  · simp

theorem launch_if_todo_pred_func (k : Kernel) (n : pred_node) (m : Machine) :
    (launch_if_todo k n m).1.pred_func = n.pred_func := by
  unfold launch_if_todo
  split_ifs <;> rfl

theorem launch_if_todo_spec_todo (k : Kernel) (child_ok : List Event → Nat → List String → Bool)
    (n : pred_node) (m : Machine) :
    (launch_if_todo (with_spec_launch k child_ok) n m).1.exec_vec.state.todo = false := by
  unfold launch_if_todo
  by_cases h : n.exec_vec.state.todo = true
  · rw [if_pos h]
    simp only [launch, with_spec_launch, spec_launch]
    split_ifs <;> rfl
  · rw [if_neg h]
    simpa using h

theorem complete_pending_execs_node (k : Kernel) (self : pred_node) (l r : predicate)
    (m : Machine) :
    complete_pending_execs k (predicate.node self l r) m
      = (predicate.node
          (exec_step k self (complete_pending_execs k l m).2).1
          (complete_pending_execs k l m).1
          (complete_pending_execs k r
            (exec_step k self (complete_pending_execs k l m).2).2).1,
         (complete_pending_execs k r
            (exec_step k self (complete_pending_execs k l m).2).2).2) := by
  rw [complete_pending_execs]
  rfl

theorem exec_step_launches (k : Kernel) (n : pred_node) (m : Machine) :
    launches (exec_step k n m).2.trace
      = launches m.trace ++ if pending_exec n = true then [launch_of n] else [] := by
  unfold exec_step
  by_cases h1 : n.pred_func = PRED_FUNC.pred_exec <;>
  by_cases h2 : n.exec_vec.multiple = true <;>
  by_cases h3 : n.exec_vec.state.todo = true <;>
  simp [h1, h2, h3, pending_exec, launch_if_todo_launches]

theorem exec_step_idle (k : Kernel) (n : pred_node) (m : Machine)
    (h : pending_exec n = false) : exec_step k n m = (n, m) := by
  unfold exec_step launch_if_todo
  by_cases h1 : n.pred_func = PRED_FUNC.pred_exec <;>
  by_cases h2 : n.exec_vec.multiple = true <;>
  by_cases h3 : n.exec_vec.state.todo = true <;>
  simp_all [pending_exec]

theorem exec_step_pred_func (k : Kernel) (n : pred_node) (m : Machine) :
    (exec_step k n m).1.pred_func = n.pred_func := by
  unfold exec_step
  split_ifs
  · exact launch_if_todo_pred_func k n m
  · rfl

theorem exec_step_spec_done (k : Kernel) (child_ok : List Event → Nat → List String → Bool)
    (n : pred_node) (m : Machine) :
    pending_exec (exec_step (with_spec_launch k child_ok) n m).1 = false := by
  cases h : pending_exec n
  · rw [exec_step_idle _ n m h]
    exact h
  · have h' := h
    simp only [pending_exec, Bool.and_eq_true, decide_eq_true_eq] at h'
    unfold exec_step
    rw [if_pos ⟨h'.1.1, h'.1.2⟩]
    simp [pending_exec, launch_if_todo_spec_todo]

theorem complete_pending_execs_launches (k : Kernel) (t : predicate) :
    ∀ m : Machine, launches (complete_pending_execs k t m).2.trace
      = launches m.trace ++ ((nodes t).filter pending_exec).map launch_of := by
  induction t with
  | NULL => intro m; simp [complete_pending_execs, nodes]
  | node self l r ihl ihr =>
    intro m
    rw [complete_pending_execs_node]
    simp only [nodes, ihl, ihr, exec_step_launches, List.filter_append, List.map_append,
      List.filter_cons, List.append_assoc]
    by_cases h : pending_exec self = true <;> simp [h]

theorem complete_pending_execs_idle (k : Kernel) (t : predicate) :
    ∀ m : Machine, (∀ n ∈ nodes t, pending_exec n = false) →
      complete_pending_execs k t m = (t, m) := by
  induction t with
  | NULL => intro m _; simp [complete_pending_execs]
  | node self l r ihl ihr =>
    intro m h
    have hl : ∀ n ∈ nodes l, pending_exec n = false :=
      fun n hn => h n (by simp [nodes, hn])
    have hr : ∀ n ∈ nodes r, pending_exec n = false :=
      fun n hn => h n (by simp [nodes, hn])
    have hs : pending_exec self = false := h self (by simp [nodes])
    rw [complete_pending_execs_node, ihl m hl, exec_step_idle k self m hs, ihr m hr]

theorem complete_pending_execs_spec_done (k : Kernel)
    (child_ok : List Event → Nat → List String → Bool) (t : predicate) :
    ∀ m : Machine, ∀ n ∈ nodes (complete_pending_execs (with_spec_launch k child_ok) t m).1,
      pending_exec n = false := by
  induction t with
  | NULL => intro m n hn; simp [complete_pending_execs, nodes] at hn
  | node self l r ihl ihr =>
    intro m n hn
    rw [complete_pending_execs_node] at hn
    simp only [nodes, List.mem_append, List.mem_cons] at hn
    rcases hn with hn | rfl | hn
    · exact ihl _ n hn
    · exact exec_step_spec_done k child_ok self _
    · exact ihr _ n hn

theorem complete_pending_execdirs_node (k : Kernel) (self : pred_node) (l r : predicate)
    (m : Machine) :
    complete_pending_execdirs k (predicate.node self l r) m
      = (predicate.node
          (execdir_step k self (complete_pending_execdirs k l m).2).1
          (complete_pending_execdirs k l m).1
          (complete_pending_execdirs k r
            (execdir_step k self (complete_pending_execdirs k l m).2).2).1,
         (complete_pending_execdirs k r
            (execdir_step k self (complete_pending_execdirs k l m).2).2).2) := by
  rw [complete_pending_execdirs]
  rfl

theorem execdir_step_launches (k : Kernel) (n : pred_node) (m : Machine) :
    launches (execdir_step k n m).2.trace
      = launches m.trace ++ if pending_execdir n = true then [launch_of n] else [] := by
  unfold execdir_step
  by_cases h1 : n.pred_func = PRED_FUNC.pred_execdir <;>
  by_cases h4 : n.pred_func = PRED_FUNC.pred_okdir <;>
  by_cases h2 : n.exec_vec.multiple = true <;>
  by_cases h3 : n.exec_vec.state.todo = true <;>
  simp [h1, h4, h2, h3, pending_execdir, launch_if_todo_launches]

theorem execdir_step_idle (k : Kernel) (n : pred_node) (m : Machine)
    (h : pending_execdir n = false) : execdir_step k n m = (n, m) := by
  unfold execdir_step launch_if_todo
  by_cases h1 : n.pred_func = PRED_FUNC.pred_execdir <;>
  by_cases h4 : n.pred_func = PRED_FUNC.pred_okdir <;>
  by_cases h2 : n.exec_vec.multiple = true <;>
  by_cases h3 : n.exec_vec.state.todo = true <;>
  simp_all [pending_execdir]

theorem execdir_step_spec_done (k : Kernel) (child_ok : List Event → Nat → List String → Bool)
    (n : pred_node) (m : Machine) :
    pending_execdir (execdir_step (with_spec_launch k child_ok) n m).1 = false := by
  cases h : pending_execdir n
  · rw [execdir_step_idle _ n m h]
    exact h
  · have h' := h
    simp only [pending_execdir, Bool.and_eq_true, Bool.or_eq_true, decide_eq_true_eq] at h'
    unfold execdir_step
    rw [if_pos h'.1.1, if_pos h'.1.2]
    simp [pending_execdir, launch_if_todo_spec_todo]

theorem complete_pending_execdirs_launches (k : Kernel) (t : predicate) :
    ∀ m : Machine, launches (complete_pending_execdirs k t m).2.trace
      = launches m.trace ++ ((nodes t).filter pending_execdir).map launch_of := by
  induction t with
  | NULL => intro m; simp [complete_pending_execdirs, nodes]
  | node self l r ihl ihr =>
    intro m
    rw [complete_pending_execdirs_node]
    simp only [nodes, ihl, ihr, execdir_step_launches, List.filter_append, List.map_append,
      List.filter_cons, List.append_assoc]
    by_cases h : pending_execdir self = true <;> simp [h]

theorem complete_pending_execdirs_idle (k : Kernel) (t : predicate) :
    ∀ m : Machine, (∀ n ∈ nodes t, pending_execdir n = false) →
      complete_pending_execdirs k t m = (t, m) := by
  induction t with
  | NULL => intro m _; simp [complete_pending_execdirs]
  | node self l r ihl ihr =>
    intro m h
    have hl : ∀ n ∈ nodes l, pending_execdir n = false :=
      fun n hn => h n (by simp [nodes, hn])
    have hr : ∀ n ∈ nodes r, pending_execdir n = false :=
      fun n hn => h n (by simp [nodes, hn])
    have hs : pending_execdir self = false := h self (by simp [nodes])
    rw [complete_pending_execdirs_node, ihl m hl, execdir_step_idle k self m hs, ihr m hr]

theorem complete_pending_execdirs_spec_done (k : Kernel)
    (child_ok : List Event → Nat → List String → Bool) (t : predicate) :
    ∀ m : Machine,
      ∀ n ∈ nodes (complete_pending_execdirs (with_spec_launch k child_ok) t m).1,
      pending_execdir n = false := by
  induction t with
  | NULL => intro m n hn; simp [complete_pending_execdirs, nodes] at hn
  | node self l r ihl ihr =>
    intro m n hn
    rw [complete_pending_execdirs_node] at hn
    simp only [nodes, List.mem_append, List.mem_cons] at hn
    rcases hn with hn | rfl | hn
    · exact ihl _ n hn
    · exact execdir_step_spec_done k child_ok self _
    · exact ihr _ n hn

theorem not_pending_exec_and_execdir (n : pred_node) :
    ¬ (pending_exec n = true ∧ pending_execdir n = true) := by
  rintro ⟨h1, h2⟩
  simp only [pending_exec, pending_execdir, Bool.and_eq_true, Bool.or_eq_true,
    decide_eq_true_eq] at h1 h2
  rcases h2.1.1 with h | h <;> rw [h1.1.1] at h <;> cases h

theorem pending_batch_eq (n : pred_node) :
    pending_batch n = (pending_exec n || pending_execdir n) := by
  simp only [pending_batch, pending_exec, pending_execdir]
  cases decide (n.pred_func = PRED_FUNC.pred_exec) <;>
  cases decide (n.pred_func = PRED_FUNC.pred_execdir) <;>
  cases decide (n.pred_func = PRED_FUNC.pred_okdir) <;>
  cases n.exec_vec.multiple <;> cases n.exec_vec.state.todo <;> rfl

/-- The walk for `-exec` leaves every pending `-execdir`/`-okdir` node as it
was, whatever `launch` does. -/
theorem exec_step_keeps_execdir (k : Kernel) (n : pred_node) (m : Machine) :
    [(exec_step k n m).1].filter pending_execdir = [n].filter pending_execdir := by
  cases h : pending_exec n
  · rw [exec_step_idle k n m h]
  · have h2 : pending_execdir n = false := by
      cases hd : pending_execdir n
      · rfl
      · exact absurd ⟨h, hd⟩ (not_pending_exec_and_execdir n)
    have hf : n.pred_func = PRED_FUNC.pred_exec := by
      simp only [pending_exec, Bool.and_eq_true, decide_eq_true_eq] at h
      exact h.1.1
    have h3 : pending_execdir (exec_step k n m).1 = false := by
      simp [pending_execdir, exec_step_pred_func, hf]
    simp [List.filter_cons, h2, h3]

theorem complete_pending_execs_keeps_execdirs (k : Kernel) (t : predicate) :
    ∀ m : Machine, (nodes (complete_pending_execs k t m).1).filter pending_execdir
      = (nodes t).filter pending_execdir := by
  induction t with
  | NULL => intro m; simp [complete_pending_execs, nodes]
  | node self l r ihl ihr =>
    intro m
    rw [complete_pending_execs_node]
    have hs := exec_step_keeps_execdir k self (complete_pending_execs k l m).2
    have key : ∀ (a : pred_node) (xs : List pred_node),
        List.filter pending_execdir (a :: xs)
          = List.filter pending_execdir [a] ++ List.filter pending_execdir xs := by
      intro a xs
      rw [← List.filter_append]
      rfl
    simp only [nodes, List.filter_append, ihl]
    rw [key, key self, hs, ihr]

theorem pending_split_perm (l : List pred_node) :
    List.Perm ((l.filter pending_exec).map launch_of ++ (l.filter pending_execdir).map launch_of)
      ((l.filter pending_batch).map launch_of) := by
  induction l with
  | nil => simp
  | cons n l ih =>
    simp only [List.filter_cons, pending_batch_eq n]
    by_cases h1 : pending_exec n = true
    · have h2 : pending_execdir n = false := by
        cases h : pending_execdir n
        · rfl
        · exact absurd ⟨h1, h⟩ (not_pending_exec_and_execdir n)
      simp only [h1, h2, if_true, Bool.false_eq_true, if_false, Bool.or_false, List.map_cons,
        List.cons_append]
      exact List.Perm.cons _ ih
    · by_cases h2 : pending_execdir n = true
      · simp only [h1, h2, if_true, if_false, Bool.or_true, List.map_cons]
        exact List.perm_middle.trans (List.Perm.cons _ ih)
      · simp only [h1, h2, if_false, Bool.or_self]
        simpa using ih

theorem cleanup_eq (k : Kernel) (t : predicate) (m : Machine) :
    cleanup k t m
      = complete_pending_execdirs k (complete_pending_execs k t m).1
          (complete_pending_execs k t m).2 := by
  cases t with
  | NULL => simp [cleanup, complete_pending_execs, complete_pending_execdirs]
  | node self l r => rfl

/-! ## Properties of the flusher -/

/-- C3: with `launch` as modelled from the spec, a second call of
`complete_pending_execs` right after the first, on the tree and machine the
first one left, changes neither the tree nor the machine and so launches
nothing, whether the commands launched by the first call succeeded or failed;
the same holds for `complete_pending_execdirs`. -/
theorem complete_pending_twice (k : Kernel)
    (child_ok : List Event → Nat → List String → Bool) (p : predicate) (m : Machine) :
    complete_pending_execs (with_spec_launch k child_ok)
          (complete_pending_execs (with_spec_launch k child_ok) p m).1
          (complete_pending_execs (with_spec_launch k child_ok) p m).2
        = complete_pending_execs (with_spec_launch k child_ok) p m
    ∧ launches (complete_pending_execs (with_spec_launch k child_ok)
          (complete_pending_execs (with_spec_launch k child_ok) p m).1
          (complete_pending_execs (with_spec_launch k child_ok) p m).2).2.trace
        = launches (complete_pending_execs (with_spec_launch k child_ok) p m).2.trace
    ∧ complete_pending_execdirs (with_spec_launch k child_ok)
          (complete_pending_execdirs (with_spec_launch k child_ok) p m).1
          (complete_pending_execdirs (with_spec_launch k child_ok) p m).2
        = complete_pending_execdirs (with_spec_launch k child_ok) p m
    ∧ launches (complete_pending_execdirs (with_spec_launch k child_ok)
          (complete_pending_execdirs (with_spec_launch k child_ok) p m).1
          (complete_pending_execdirs (with_spec_launch k child_ok) p m).2).2.trace
        = launches (complete_pending_execdirs (with_spec_launch k child_ok) p m).2.trace := by
  have h1 := complete_pending_execs_idle (with_spec_launch k child_ok) _
    (complete_pending_execs (with_spec_launch k child_ok) p m).2
    (complete_pending_execs_spec_done k child_ok p m)
  have h2 := complete_pending_execdirs_idle (with_spec_launch k child_ok) _
    (complete_pending_execdirs (with_spec_launch k child_ok) p m).2
    (complete_pending_execdirs_spec_done k child_ok p m)
  exact ⟨h1, by rw [h1], h2, by rw [h2]⟩

/-- C3 witness: on the example tree, with every launched command failing, the
first call launches the pending `-exec` node and the second call adds no
launch. -/
theorem complete_pending_twice_witness :
    launches (complete_pending_execs (with_spec_launch kernel_enoent (fun _ _ _ => false))
        tree_example machine_reset).2.trace = [(100, ["a", "x", "y"])]
    ∧ launches (complete_pending_execs (with_spec_launch kernel_enoent (fun _ _ _ => false))
          (complete_pending_execs (with_spec_launch kernel_enoent (fun _ _ _ => false))
            tree_example machine_reset).1
          (complete_pending_execs (with_spec_launch kernel_enoent (fun _ _ _ => false))
            tree_example machine_reset).2).2.trace = [(100, ["a", "x", "y"])] :=
  ⟨by decide,
   (complete_pending_twice kernel_enoent (fun _ _ _ => false) tree_example
      machine_reset).2.1.trans (by decide)⟩

/-- C4: whatever `launch` does, the launches made by one call of `cleanup` are
the pending batch-mode `pred_exec` nodes in tree order followed by the pending
batch-mode `pred_execdir`/`pred_okdir` nodes in tree order; this list is a
rearrangement of the list of all pending batch-mode exec-family nodes of the
tree, so each of them is launched exactly once and no other node is launched;
no node qualifies for both passes; a null tree yields no launch and no other
effect. -/
theorem cleanup_launches_each_pending_once (k : Kernel) (t : predicate) (m : Machine) :
    launches (cleanup k t m).2.trace
        = launches m.trace ++ (((nodes t).filter pending_exec).map launch_of
            ++ ((nodes t).filter pending_execdir).map launch_of)
    ∧ List.Perm (((nodes t).filter pending_exec).map launch_of
            ++ ((nodes t).filter pending_execdir).map launch_of)
        (((nodes t).filter pending_batch).map launch_of)
    ∧ (∀ n : pred_node, ¬ (pending_exec n = true ∧ pending_execdir n = true))
    ∧ cleanup k predicate.NULL m = (predicate.NULL, m) := by
  refine ⟨?_, pending_split_perm (nodes t), not_pending_exec_and_execdir, rfl⟩
  rw [cleanup_eq, complete_pending_execdirs_launches, complete_pending_execs_launches,
    complete_pending_execs_keeps_execdirs, List.append_assoc]

/-- C4 witness: on the example tree `cleanup` launches the pending `-exec`
node, then the pending `-execdir` node, and nothing else. -/
theorem cleanup_launches_each_pending_once_witness :
    launches (cleanup kernel_eacces tree_example machine_reset).2.trace
      = [(100, ["a", "x", "y"]), (200, ["b", "z"])] :=
  (cleanup_launches_each_pending_once kernel_eacces tree_example machine_reset).1.trans
    (by decide)

/-! ## Lemmas on the command-line scanner -/

theorem strcmp_eq_zero (a b : String) : (0 = strcmp a b) ↔ b = a := by
  unfold strcmp
  by_cases h : a = b
  · subst h
    simp
  · have h2 : ¬ b = a := fun e => h e.symm
    rw [if_neg h]
    split_ifs <;> simp [h2]

theorem is_policy_flag_iff (t : String) :
    is_policy_flag t = true ↔ (t = "-H" ∨ t = "-L" ∨ t = "-P") := by
  simp [is_policy_flag, or_assoc]

theorem loop_step_flag (argv : List String) (i : Nat) (m : Machine) (h : i < argv.length)
    (hf : is_policy_flag argv[i] = true) :
    process_leading_options_loop argv i m
      = process_leading_options_loop argv (i + 1)
          (set_follow_state (policy_of_flag argv[i]) m) := by
  rw [process_leading_options_loop]
  simp only [h, dite_true, strcmp_eq_zero]
  rcases (is_policy_flag_iff _).1 hf with e | e | e <;> rw [e] <;> simp [policy_of_flag]

theorem loop_step_stop (argv : List String) (i : Nat) (m : Machine) (h : i < argv.length)
    (hf : is_policy_flag argv[i] = false) :
    process_leading_options_loop argv i m
      = (if argv[i] = "--" then i + 1 else i, m) := by
  rw [process_leading_options_loop]
  have hn : ¬ (argv[i] = "-H" ∨ argv[i] = "-L" ∨ argv[i] = "-P") := by
    rw [← is_policy_flag_iff, hf]
    simp
  have n1 : ¬ (argv[i] = "-H") := fun e => hn (Or.inl e)
  have n2 : ¬ (argv[i] = "-L") := fun e => hn (Or.inr (Or.inl e))
  have n3 : ¬ (argv[i] = "-P") := fun e => hn (Or.inr (Or.inr e))
  simp only [h, dite_true, strcmp_eq_zero, n1, n2, n3, if_false]
  by_cases e : argv[i] = "--" <;> simp [e]

theorem loop_step_end (argv : List String) (i : Nat) (m : Machine) (h : ¬ i < argv.length) :
    process_leading_options_loop argv i m = (i, m) := by
  rw [process_leading_options_loop]
  simp [h]


theorem first_non_flag_cons_flag (t : String) (r : List String)
    (hf : is_policy_flag t = true) : first_non_flag (t :: r) = first_non_flag r + 1 := by
  simp [first_non_flag, List.takeWhile_cons, hf]

theorem first_non_flag_cons_stop (t : String) (r : List String)
    (hf : is_policy_flag t = false) : first_non_flag (t :: r) = 0 := by
  simp [first_non_flag, List.takeWhile_cons, hf]

theorem spec_resume_index_cons_flag (t : String) (r : List String)
    (hf : is_policy_flag t = true) :
    spec_resume_index (t :: r) = spec_resume_index r + 1 := by
  unfold spec_resume_index
  rw [first_non_flag_cons_flag t r hf, List.getElem?_cons_succ]
  cases r[first_non_flag r]? with
  | none => simp
  | some x => by_cases hx : x = "--" <;> simp [hx]

theorem spec_resume_index_cons_stop (t : String) (r : List String)
    (hf : is_policy_flag t = false) :
    spec_resume_index (t :: r) = if t = "--" then 1 else 0 := by
  unfold spec_resume_index
  rw [first_non_flag_cons_stop t r hf]
  simp

theorem getElem_length_append (pre : List String) (t : String) (r : List String)
    (h : pre.length < (pre ++ t :: r).length) : (pre ++ t :: r)[pre.length] = t := by
  rw [List.getElem_append_right (Nat.le_refl _)]
  simp

/-- The loop entered at position `pre.length` of `pre ++ rest` consumes the
leading flags of `rest`. -/
theorem loop_spec (rest : List String) :
    ∀ (pre : List String) (m : Machine),
      process_leading_options_loop (pre ++ rest) pre.length m
        = (pre.length + spec_resume_index rest,
            apply_flags (rest.takeWhile is_policy_flag) m) := by
  induction rest with
  | nil =>
    intro pre m
    rw [loop_step_end _ _ _ (by simp)]
    simp [spec_resume_index, first_non_flag, apply_flags]
  | cons t r ih =>
    intro pre m
    have h : pre.length < (pre ++ t :: r).length := by simp
    have ht := getElem_length_append pre t r h
    cases hf : is_policy_flag t
    · rw [loop_step_stop _ _ _ h (by rw [ht]; exact hf), ht,
        spec_resume_index_cons_stop t r hf]
      have htw : List.takeWhile is_policy_flag (t :: r) = [] := by
        simp [List.takeWhile_cons, hf]
      rw [htw]
      by_cases e : t = "--" <;> simp [e, apply_flags]
    · rw [loop_step_flag _ _ _ h (by rw [ht]; exact hf), ht,
        spec_resume_index_cons_flag t r hf]
      have h2 := ih (pre ++ [t]) (set_follow_state (policy_of_flag t) m)
      simp only [List.append_assoc, List.singleton_append, List.length_append,
        List.length_singleton] at h2
      have htw : List.takeWhile is_policy_flag (t :: r)
          = t :: List.takeWhile is_policy_flag r := by
        simp [List.takeWhile_cons, hf]
      rw [h2, htw]
      simp only [apply_flags, List.foldl_cons, Prod.mk.injEq, and_true]
      omega

theorem process_leading_options_eq (prog : String) (args : List String) (m : Machine) :
    process_leading_options (prog :: args) m
      = (spec_resume_index args + 1, apply_flags (args.takeWhile is_policy_flag) m) := by
  have h := loop_spec args [prog] m
  simp only [List.singleton_append, List.length_singleton] at h
  rw [process_leading_options, h, Nat.add_comm]

theorem apply_flags_append (a b : List String) (m : Machine) :
    apply_flags (a ++ b) m = apply_flags b (apply_flags a m) := by
  simp [apply_flags, List.foldl_append]

theorem apply_flags_policy (flags : List String) (m : Machine) :
    (apply_flags flags m).options.symlink_handling
      = match flags.getLast? with
        | none => m.options.symlink_handling
        | some t => policy_of_flag t := by
  rcases List.eq_nil_or_concat flags with rfl | ⟨l, t, rfl⟩
  · rfl
  · rw [List.concat_eq_append, apply_flags_append]
    simp [apply_flags, set_follow_state]

theorem spec_resume_index_eq (args : List String) :
    spec_resume_index args
      = first_non_flag args + if args[first_non_flag args]? = some "--" then 1 else 0 := by
  unfold spec_resume_index
  cases h : args[first_non_flag args]? with
  | none =>
    have h1 : args.length ≤ first_non_flag args := List.getElem?_eq_none_iff.1 h
    have h2 : first_non_flag args ≤ args.length := (List.takeWhile_sublist _).length_le
    simp
    omega
  | some t => by_cases e : t = "--" <;> simp [e]

/-! ## Properties of the command-line scanner -/

/-- C5: for every token that is a C string (no NUL byte inside) and every value
of `leading`, `looks_like_expression` returns true exactly when the token
starts with `-` and is longer than one character, or is exactly `!` or `(`, or
is exactly `)` or `,` while `leading` is false; in every other case it returns
false. -/
theorem looks_like_expression_table (arg : String) (leading : Bool)
    (hnul : NUL ∉ arg.toList) :
    looks_like_expression arg leading = true ↔
      ((arg.toList.head? = some '-' ∧ 1 < arg.length)
        ∨ arg = "!" ∨ arg = "("
        ∨ ((arg = ")" ∨ arg = ",") ∧ leading = false)) := by
  obtain ⟨l⟩ := arg
  simp only [String.toList] at hnul
  rcases l with _ | ⟨c, _ | ⟨d, l⟩⟩
  · simp [looks_like_expression, char_at, NUL, String.length]
  · simp only [looks_like_expression, char_at, String.length, String.ext_iff, List.getD_cons_zero,
      List.getD_cons_succ, List.getD_nil, ne_eq, not_true_eq_false, if_false, List.head?_cons,
      Option.some.injEq, List.length_singleton, lt_self_iff_false, and_false, false_or,
      String.toList]
    by_cases h1 : c = '-'
    · subst h1; simp
    by_cases h2 : c = ')'
    · subst h2; simp
    by_cases h3 : c = ','
    · subst h3; simp
    by_cases h4 : c = '!'
    · subst h4; simp
    by_cases h5 : c = '('
    · subst h5; simp
    simp [h1, h2, h3, h4, h5]
  · have hd : d ≠ NUL := fun h => hnul (by simp [h])
    simp [looks_like_expression, char_at, String.length, String.ext_iff, hd]

/-- C5 witness: the six examples of the specification and the empty token. -/
theorem looks_like_expression_table_witness :
    NUL ∉ "-name".toList
    ∧ looks_like_expression "-name" true = true
    ∧ ¬ (looks_like_expression "-" true = true)
    ∧ ¬ (looks_like_expression ")" true = true)
    ∧ looks_like_expression ")" false = true
    ∧ ¬ (looks_like_expression "!foo" true = true)
    ∧ looks_like_expression "!" true = true
    ∧ ¬ (looks_like_expression "" false = true) :=
  ⟨by decide,
   (looks_like_expression_table "-name" true (by decide)).2 (by decide),
   fun h => absurd ((looks_like_expression_table "-" true (by decide)).1 h) (by decide),
   fun h => absurd ((looks_like_expression_table ")" true (by decide)).1 h) (by decide),
   (looks_like_expression_table ")" false (by decide)).2 (by decide),
   fun h => absurd ((looks_like_expression_table "!foo" true (by decide)).1 h) (by decide),
   (looks_like_expression_table "!" true (by decide)).2 (by decide),
   fun h => absurd ((looks_like_expression_table "" false (by decide)).1 h) (by decide)⟩

/-- C6: for every argument vector `prog :: args`, `process_leading_options`
returns the index in `argv` of the position of `args` at which the
specification resumes: one more (for `argv[0]`, the program name) than `k`,
`k + 1` or the length of `args`, where `k` is the position in `args` of the
first token that is not `-H`, `-L` or `-P`, according to whether that token is
not `--`, is `--`, or does not exist.  The two examples of the specification
give position 2 of `args`. -/
theorem process_leading_options_resume_index (prog : String) (args : List String)
    (m : Machine) :
    (process_leading_options (prog :: args) m).1 = spec_resume_index args + 1
    ∧ (process_leading_options (prog :: ["-L", "--", "-H"]) m).1 = 2 + 1
    ∧ (process_leading_options (prog :: ["-L", "-H", "foo"]) m).1 = 2 + 1 := by
  refine ⟨by rw [process_leading_options_eq], ?_, ?_⟩
  · rw [process_leading_options_eq]
    show spec_resume_index ["-L", "--", "-H"] + 1 = 2 + 1
    decide
  · rw [process_leading_options_eq]
    show spec_resume_index ["-L", "-H", "foo"] + 1 = 2 + 1
    decide

/-- C7 (amended): the policy left by `process_leading_options` is the one named
by the last flag of the maximal leading run of `-H`/`-L`/`-P` tokens, and the
machine is unchanged when that run is empty.  Two argument lists with the same
maximal leading run leave the same machine, so no token at or after the first
token that is not a flag influences the policy; they give the same resume
index as soon as their first non-flag tokens are both `--` or both not `--`,
so no token after the first non-flag token influences the resume index. -/
theorem process_leading_options_policy (prog : String) (args args2 : List String)
    (m : Machine)
    (hrun : args2.takeWhile is_policy_flag = args.takeWhile is_policy_flag) :
    (process_leading_options (prog :: args) m).2.options.symlink_handling
        = spec_policy m.options.symlink_handling args
    ∧ (args.takeWhile is_policy_flag = [] → (process_leading_options (prog :: args) m).2 = m)
    ∧ (process_leading_options (prog :: args2) m).2
        = (process_leading_options (prog :: args) m).2
    ∧ ((args2[first_non_flag args2]? = some "--" ↔ args[first_non_flag args]? = some "--") →
        (process_leading_options (prog :: args2) m).1
          = (process_leading_options (prog :: args) m).1) := by
  simp only [process_leading_options_eq]
  refine ⟨?_, ?_, by rw [hrun], ?_⟩
  · rw [apply_flags_policy]
    rfl
  · intro h
    rw [h]
    rfl
  · intro h
    have hk : first_non_flag args2 = first_non_flag args := by
      unfold first_non_flag
      rw [hrun]
    rw [spec_resume_index_eq args2, spec_resume_index_eq args, hk]
    rw [hk] at h
    by_cases e : args[first_non_flag args]? = some "--"
    · rw [if_pos e, if_pos (h.2 e)]
    · rw [if_neg e, if_neg (fun e2 => e (h.1 e2))]

/-- C7 witness: after `-L -H` the policy is that of `-H`, whether the next
tokens are `foo` or `bar -P`; the resume index is the same. -/
theorem process_leading_options_policy_witness :
    ["-L", "-H", "bar", "-P"].takeWhile is_policy_flag
        = ["-L", "-H", "foo"].takeWhile is_policy_flag
    ∧ (process_leading_options ["find", "-L", "-H", "foo"]
          machine_reset).2.options.symlink_handling
        = spec_policy machine_reset.options.symlink_handling ["-L", "-H", "foo"]
    ∧ spec_policy machine_reset.options.symlink_handling ["-L", "-H", "foo"]
        = SymlinkOption.SYMLINK_DEREF_ARGSONLY
    ∧ (process_leading_options ["find", "-L", "-H", "bar", "-P"] machine_reset).2
        = (process_leading_options ["find", "-L", "-H", "foo"] machine_reset).2
    ∧ (process_leading_options ["find", "-L", "-H", "bar", "-P"] machine_reset).1
        = (process_leading_options ["find", "-L", "-H", "foo"] machine_reset).1 :=
  ⟨by decide,
   (process_leading_options_policy "find" ["-L", "-H", "foo"] ["-L", "-H", "bar", "-P"]
      machine_reset (by decide)).1,
   by decide,
   (process_leading_options_policy "find" ["-L", "-H", "foo"] ["-L", "-H", "bar", "-P"]
      machine_reset (by decide)).2.2.1,
   (process_leading_options_policy "find" ["-L", "-H", "foo"] ["-L", "-H", "bar", "-P"]
      machine_reset (by decide)).2.2.2 (by decide)⟩

/-- C7 counterexample: the argument lists `--` and `foo` have the same (empty)
leading run of flags and differ only in the first token that is not a flag,
yet `process_leading_options` returns 2 for the first and 1 for the second. -/
theorem resume_index_depends_on_terminator :
    ["--"].takeWhile is_policy_flag = ["foo"].takeWhile is_policy_flag
    ∧ (process_leading_options ["find", "--"] machine_reset).1 = 2
    ∧ (process_leading_options ["find", "foo"] machine_reset).1 = 1
    ∧ (process_leading_options ["find", "--"] machine_reset).1
        ≠ (process_leading_options ["find", "foo"] machine_reset).1 := by
  simp only [process_leading_options_eq]
  decide

/-! ## Properties of the status cache -/

theorem xstat_results_append (a b : List Event) :
    xstat_results (a ++ b) = xstat_results a ++ xstat_results b := by
  simp [xstat_results]

theorem sys_stat_frame (k : Kernel) (name : String) (p : struct_stat) (m : Machine) :
    (sys_stat k name p m).2.2.state = m.state
    ∧ (sys_stat k name p m).2.2.options = m.options
    ∧ xstat_results (sys_stat k name p m).2.2.trace = xstat_results m.trace := by
  simp [sys_stat, xstat_results]

theorem sys_lstat_frame (k : Kernel) (name : String) (p : struct_stat) (m : Machine) :
    (sys_lstat k name p m).2.2.state = m.state
    ∧ (sys_lstat k name p m).2.2.options = m.options
    ∧ xstat_results (sys_lstat k name p m).2.2.trace = xstat_results m.trace := by
  simp [sys_lstat, xstat_results]

theorem fallback_stat_frame (k : Kernel) (name : String) (p : struct_stat) (rv : Int)
    (m : Machine) :
    (fallback_stat k name p rv m).2.2.state = m.state
    ∧ (fallback_stat k name p rv m).2.2.options = m.options
    ∧ xstat_results (fallback_stat k name p rv m).2.2.trace = xstat_results m.trace := by
  unfold fallback_stat
  split_ifs
  · exact sys_lstat_frame k name p m
  · simp
  · simp

theorem optionl_stat_frame (k : Kernel) (name : String) (p : struct_stat) (m : Machine) :
    (optionl_stat k name p m).2.2.state = m.state
    ∧ (optionl_stat k name p m).2.2.options = m.options
    ∧ xstat_results (optionl_stat k name p m).2.2.trace = xstat_results m.trace := by
  have h1 := sys_stat_frame k name p m
  have h2 := fallback_stat_frame k name (sys_stat k name p m).2.1 (sys_stat k name p m).1
    (sys_stat k name p m).2.2
  unfold optionl_stat
  simp only []
  split_ifs
  · exact h1
  · exact ⟨h2.1.trans h1.1, h2.2.1.trans h1.2.1, h2.2.2.trans h1.2.2⟩

theorem optionh_stat_frame (k : Kernel) (name : String) (p : struct_stat) (m : Machine) :
    (optionh_stat k name p m).2.2.state = m.state
    ∧ (optionh_stat k name p m).2.2.options = m.options
    ∧ xstat_results (optionh_stat k name p m).2.2.trace = xstat_results m.trace := by
  have h1 := sys_stat_frame k name p m
  have h2 := fallback_stat_frame k name (sys_stat k name p m).2.1 (sys_stat k name p m).1
    (sys_stat k name p m).2.2
  unfold optionh_stat
  simp only []
  split_ifs
  · exact h1
  · exact ⟨h2.1.trans h1.1, h2.2.1.trans h1.2.1, h2.2.2.trans h1.2.2⟩
  · exact sys_lstat_frame k name p m

theorem call_xstat_frame (k : Kernel) (name : String) (p : struct_stat) (m : Machine) :
    (call_xstat k name p m).2.2.state = m.state
    ∧ (call_xstat k name p m).2.2.options = m.options
    ∧ xstat_results (call_xstat k name p m).2.2.trace
        = xstat_results m.trace ++ [(call_xstat k name p m).1] := by
  have hl := optionl_stat_frame k name p m
  have hh := optionh_stat_frame k name p m
  have hp := sys_lstat_frame k name p m
  unfold call_xstat optionp_stat
  cases m.options.xstat <;> simp only [xstat_results_append]
  · exact ⟨hl.1, hl.2.1, by rw [hl.2.2]; simp [xstat_results]⟩
  · exact ⟨hh.1, hh.2.1, by rw [hh.2.2]; simp [xstat_results]⟩
  · exact ⟨hp.1, hp.2.1, by rw [hp.2.2]; simp [xstat_results]⟩


theorem xstat_results_error (tr : List Event) (e : Nat) (msg : String) :
    xstat_results (tr ++ [Event.error e msg]) = xstat_results tr := by
  simp [xstat_results]

theorem get_statinfo_cached (k : Kernel) (pathname name : String) (p : struct_stat)
    (m : Machine) (hs : m.state.have_stat = true) :
    get_statinfo k pathname name p m
      = (0, p, { m with state := { m.state with
          have_stat := true, have_type := true, type := p.st_mode } }) := by
  simp [get_statinfo, hs]

theorem get_statinfo_trace (k : Kernel) (pathname name : String) (p : struct_stat)
    (m : Machine) (hs : m.state.have_stat = false) :
    xstat_results (get_statinfo k pathname name p m).2.2.trace
      = xstat_results m.trace ++ [(call_xstat k name p m).1] := by
  have hx := (call_xstat_frame k name p m).2.2
  unfold get_statinfo
  simp only [hs, Bool.false_eq_true, if_false]
  split_ifs
  · simpa [error, xstat_results_error] using hx
  · exact hx
  · exact hx

theorem get_statinfo_have_stat (k : Kernel) (pathname name : String) (p : struct_stat)
    (m : Machine) (hs : m.state.have_stat = false) (h0 : (call_xstat k name p m).1 = 0) :
    (get_statinfo k pathname name p m).2.2.state.have_stat = true := by
  unfold get_statinfo
  simp [hs, h0]

/-- What one call of `get_statinfo` adds to the list of query results. -/
theorem get_statinfo_queries (k : Kernel) (pathname name : String) (p : struct_stat)
    (m : Machine) :
    ∃ qs, xstat_results (get_statinfo k pathname name p m).2.2.trace
        = xstat_results m.trace ++ qs
      ∧ (m.state.have_stat = true →
          qs = [] ∧ (get_statinfo k pathname name p m).2.2.state.have_stat = true)
      ∧ (qs = [] ∨ ∃ rv, qs = [rv] ∧
          (rv = 0 → (get_statinfo k pathname name p m).2.2.state.have_stat = true)) := by
  cases hs : m.state.have_stat
  · exact ⟨[(call_xstat k name p m).1], get_statinfo_trace k pathname name p m hs,
      by simp, Or.inr ⟨_, rfl, get_statinfo_have_stat k pathname name p m hs⟩⟩
  · refine ⟨[], ?_, fun _ => ⟨rfl, ?_⟩, Or.inl rfl⟩ <;>
      simp [get_statinfo_cached k pathname name p m hs]

theorem get_info_queries (k : Kernel) (pathname name : String) (p : struct_stat)
    (pred_ptr : pred_node) (m : Machine) :
    ∃ qs, xstat_results (get_info k pathname name p pred_ptr m).2.2.trace
        = xstat_results m.trace ++ qs
      ∧ (m.state.have_stat = true →
          qs = [] ∧ (get_info k pathname name p pred_ptr m).2.2.state.have_stat = true)
      ∧ (qs = [] ∨ ∃ rv, qs = [rv] ∧
          (rv = 0 → (get_info k pathname name p pred_ptr m).2.2.state.have_stat = true)) := by
  unfold get_info
  split_ifs
  · exact get_statinfo_queries k pathname _ p m
  · exact get_statinfo_queries k pathname _ p m
  · exact ⟨[], by simp, fun h => ⟨rfl, h⟩, Or.inl rfl⟩

theorem length_le_failures_add_one (l : List Int) (h : ∀ rv ∈ l.dropLast, rv ≠ 0) :
    l.length ≤ l.countP (fun rv => decide (rv ≠ 0)) + 1 := by
  rcases List.eq_nil_or_concat l with rfl | ⟨l1, x, rfl⟩
  · simp
  · rw [List.concat_eq_append] at h ⊢
    rw [List.dropLast_concat] at h
    have : l1.countP (fun rv => decide (rv ≠ 0)) = l1.length := by
      rw [List.countP_eq_length]
      intro a ha
      simpa using h a ha
    rw [List.countP_append, this]
    simp

theorem get_info_seq_inv (k : Kernel) (calls : List info_call) :
    ∀ m : Machine, ∃ qs,
      xstat_results (get_info_seq k calls m).trace = xstat_results m.trace ++ qs
      ∧ (∀ rv ∈ qs.dropLast, rv ≠ 0)
      ∧ (m.state.have_stat = true → qs = []) := by
  induction calls with
  | nil => intro m; exact ⟨[], by simp [get_info_seq], by simp, fun _ => rfl⟩
  | cons c cs ih =>
    intro m
    obtain ⟨q1, ht1, hc1, hq1⟩ := get_info_queries k c.pathname c.name c.p c.pred_ptr m
    obtain ⟨q2, ht2, hd2, hc2⟩ := ih (get_info k c.pathname c.name c.p c.pred_ptr m).2.2
    refine ⟨q1 ++ q2, ?_, ?_, ?_⟩
    · simp only [get_info_seq]
      rw [ht2, ht1, List.append_assoc]
    · rcases hq1 with rfl | ⟨rv, rfl, hrv⟩
      · simpa using hd2
      · by_cases h0 : rv = 0
        · rw [hc2 (hrv h0)]
          simp
        · intro x hx
          cases q2 with
          | nil => simp at hx
          | cons y ys =>
            simp only [List.singleton_append, List.dropLast_cons₂, List.mem_cons] at hx
            rcases hx with rfl | hx
            · exact h0
            · exact hd2 x hx
    · intro hs
      obtain ⟨rfl, hs1⟩ := hc1 hs
      simpa using hc2 hs1

/-- C10 (amended): when `state.have_stat` is set, `get_statinfo` returns 0,
issues no query and adds nothing to the trace, and leaves the caller's buffer,
`have_stat`, the exit status, `errno` and the options as they were; it sets
`have_type` and overwrites `state.type` with the `st_mode` of the caller's
buffer.  So the machine is unchanged exactly when `have_type` was set and
`state.type` already equalled the buffer's `st_mode`. -/
theorem get_statinfo_when_cached (k : Kernel) (pathname name : String) (p : struct_stat)
    (m : Machine) (hs : m.state.have_stat = true) :
    (get_statinfo k pathname name p m).1 = 0
    ∧ (get_statinfo k pathname name p m).2.1 = p
    ∧ (get_statinfo k pathname name p m).2.2
        = { m with state := { m.state with have_type := true, type := p.st_mode } }
    ∧ (get_statinfo k pathname name p m).2.2.trace = m.trace
    ∧ (get_statinfo k pathname name p m).2.2.state.have_stat = true
    ∧ (get_statinfo k pathname name p m).2.2.state.exit_status = m.state.exit_status
    ∧ ((get_statinfo k pathname name p m).2.2 = m
        ↔ (m.state.have_type = true ∧ m.state.type = p.st_mode)) := by
  rw [get_statinfo_cached k pathname name p m hs]
  obtain ⟨⟨hst, hty, ty, cd, rp, es⟩, o, e, tr⟩ := m
  simp only at hs
  subst hs
  refine ⟨rfl, rfl, rfl, rfl, rfl, rfl, ?_⟩
  simp only [Machine.mk.injEq, State.mk.injEq, and_true, true_and]
  constructor
  · rintro ⟨h1, h2⟩
    exact ⟨h1.symm, h2.symm⟩
  · rintro ⟨h1, h2⟩
    exact ⟨h1.symm, h2.symm⟩

/-- C10 witness: with the status of a regular file cached and a buffer holding
the same mode, `get_statinfo` changes nothing. -/
theorem get_statinfo_when_cached_witness :
    machine_cached.state.have_stat = true
    ∧ (get_statinfo kernel_enoent "./f" "f" buf_regular machine_cached).1 = 0
    ∧ (get_statinfo kernel_enoent "./f" "f" buf_regular machine_cached).2.2
        = machine_cached :=
  ⟨rfl,
   (get_statinfo_when_cached kernel_enoent "./f" "f" buf_regular machine_cached rfl).1,
   (get_statinfo_when_cached kernel_enoent "./f" "f" buf_regular machine_cached
      rfl).2.2.2.2.2.2.mpr ⟨rfl, rfl⟩⟩

/-- C10 counterexample: with the status of a regular file cached
(`have_stat` and `have_type` set, `state.type` 0o100644) and a caller's buffer
whose `st_mode` is 0o040755, `get_statinfo` changes `state.type`. -/
theorem get_statinfo_overwrites_type :
    machine_cached.state.have_stat = true
    ∧ machine_cached.state.type = 33188
    ∧ (get_statinfo kernel_enoent "./f" "f" buf_directory machine_cached).2.2.state.type
        = 16877
    ∧ (get_statinfo kernel_enoent "./f" "f" buf_directory machine_cached).2.2.state.type
        ≠ machine_cached.state.type := by
  decide

/-! ## Lemmas on the two paths of `get_statinfo` -/

theorem get_statinfo_success (k : Kernel) (pathname name : String) (p : struct_stat)
    (m : Machine) (hs : m.state.have_stat = false) (h0 : (call_xstat k name p m).1 = 0) :
    get_statinfo k pathname name p m
      = (0, (call_xstat k name p m).2.1,
          { (call_xstat k name p m).2.2 with state := { m.state with
              have_stat := true, have_type := true,
              type := (call_xstat k name p m).2.1.st_mode } }) := by
  have hx := (call_xstat_frame k name p m).1
  unfold get_statinfo
  simp only [hs, Bool.false_eq_true, if_false, h0, ne_eq, not_true_eq_false, hx]

theorem get_statinfo_failure (k : Kernel) (pathname name : String) (p : struct_stat)
    (m : Machine) (hs : m.state.have_stat = false) (h0 : (call_xstat k name p m).1 ≠ 0) :
    get_statinfo k pathname name p m
      = (-1, (call_xstat k name p m).2.1,
          if m.options.ignore_readdir_race = true
              ∧ (call_xstat k name p m).2.2.errno = ENOENT then
            (call_xstat k name p m).2.2
          else
            { (call_xstat k name p m).2.2 with
                state := { m.state with exit_status := 1 },
                trace := (call_xstat k name p m).2.2.trace
                  ++ [Event.error (call_xstat k name p m).2.2.errno pathname] }) := by
  have hx := (call_xstat_frame k name p m).1
  have ho := (call_xstat_frame k name p m).2.1
  unfold get_statinfo
  simp only [hs, Bool.false_eq_true, if_false, h0, ne_eq, not_false_eq_true, if_true, ho]
  by_cases hr : m.options.ignore_readdir_race = true
  · by_cases he : (call_xstat k name p m).2.2.errno = ENOENT
    · simp [hr, he]
    · simp [hr, he, error, hx, hs, ho]
  · simp [hr, error, hx, hs, ho]

theorem get_statinfo_failure_state (k : Kernel) (pathname name : String) (p : struct_stat)
    (m : Machine) (hs : m.state.have_stat = false) (h0 : (call_xstat k name p m).1 ≠ 0) :
    (get_statinfo k pathname name p m).2.2.state.have_stat = m.state.have_stat
    ∧ (get_statinfo k pathname name p m).2.2.state.have_type = m.state.have_type
    ∧ (get_statinfo k pathname name p m).2.2.state.type = m.state.type := by
  have hx := (call_xstat_frame k name p m).1
  rw [get_statinfo_failure k pathname name p m hs h0]
  split_ifs <;> simp [hx]

/-! ## Properties of `get_info` and `get_statinfo` -/

/-- C11: `get_info` is exactly `get_statinfo` on `state.rel_pathname` when
`need_stat` is set, or when `need_stat` is clear, `need_type` is set and
`state.have_type` is clear; in every other case it returns 0 and leaves the
buffer and the whole machine (cache, exit status, `errno`, trace) as they
were, so no query is issued. -/
theorem get_info_decision_table (k : Kernel) (pathname name : String) (p : struct_stat)
    (pred_ptr : pred_node) (m : Machine) :
    get_info k pathname name p pred_ptr m
      = if pred_ptr.need_stat = true
            ∨ (pred_ptr.need_stat = false ∧ pred_ptr.need_type = true
                ∧ m.state.have_type = false) then
          get_statinfo k pathname m.state.rel_pathname p m
        else (0, p, m) := by
  unfold get_info
  cases h1 : pred_ptr.need_stat <;> cases h2 : pred_ptr.need_type <;>
    cases h3 : m.state.have_type <;> simp

/-- C15: when `state.have_stat` is clear and the call through `options.xstat`
returns non-zero, `get_statinfo` makes that one query and no other, returns
-1, leaves `have_stat`, `have_type` and `state.type` as they were, and sets
`state.exit_status` to 1 unless `options.ignore_readdir_race` is set and
`errno` is `ENOENT`; in that tolerated case the exit status keeps its value and
no diagnostic is printed. -/
theorem get_statinfo_failure_path (k : Kernel) (pathname name : String) (p : struct_stat)
    (m : Machine) (hs : m.state.have_stat = false)
    (hfail : (call_xstat k name p m).1 ≠ 0) :
    (get_statinfo k pathname name p m).1 = -1
    ∧ xstat_results (get_statinfo k pathname name p m).2.2.trace
        = xstat_results m.trace ++ [(call_xstat k name p m).1]
    ∧ (get_statinfo k pathname name p m).2.2.state.have_stat = m.state.have_stat
    ∧ (get_statinfo k pathname name p m).2.2.state.have_type = m.state.have_type
    ∧ (get_statinfo k pathname name p m).2.2.state.type = m.state.type
    ∧ (¬ (m.options.ignore_readdir_race = true
            ∧ (call_xstat k name p m).2.2.errno = ENOENT) →
        (get_statinfo k pathname name p m).2.2.state.exit_status = 1)
    ∧ ((m.options.ignore_readdir_race = true
            ∧ (call_xstat k name p m).2.2.errno = ENOENT) →
        (get_statinfo k pathname name p m).2.2.state.exit_status = m.state.exit_status
        ∧ (get_statinfo k pathname name p m).2.2 = (call_xstat k name p m).2.2) := by
  have hx := (call_xstat_frame k name p m).1
  have ht := get_statinfo_trace k pathname name p m hs
  rw [get_statinfo_failure k pathname name p m hs hfail] at ht ⊢
  refine ⟨rfl, ht, ?_, ?_, ?_, ?_, ?_⟩
  · split_ifs <;> simp [hx]
  · split_ifs <;> simp [hx]
  · split_ifs <;> simp [hx]
  · intro h
    simp [h]
  · intro h
    simp [h, hx]

/-- C16: when `state.have_stat` is clear and the call through `options.xstat`
returns 0, `get_statinfo` returns 0 and leaves `have_stat` and `have_type` set
and `state.type` equal to the `st_mode` of the record the query stored in the
caller's buffer; the exit status is as it was. -/
theorem get_statinfo_success_path (k : Kernel) (pathname name : String) (p : struct_stat)
    (m : Machine) (hs : m.state.have_stat = false)
    (hok : (call_xstat k name p m).1 = 0) :
    (get_statinfo k pathname name p m).1 = 0
    ∧ (get_statinfo k pathname name p m).2.1 = (call_xstat k name p m).2.1
    ∧ (get_statinfo k pathname name p m).2.2.state.have_stat = true
    ∧ (get_statinfo k pathname name p m).2.2.state.have_type = true
    ∧ (get_statinfo k pathname name p m).2.2.state.type
        = (call_xstat k name p m).2.1.st_mode
    ∧ (get_statinfo k pathname name p m).2.2.state.exit_status = m.state.exit_status := by
  rw [get_statinfo_success k pathname name p m hs hok]
  exact ⟨rfl, rfl, rfl, rfl, rfl, rfl⟩

/-- C15 witness: a vanished file (`lstat` fails with `ENOENT`) sets the exit
status when races are not tolerated and leaves it alone when they are. -/
theorem get_statinfo_failure_path_witness :
    machine_reset.state.have_stat = false
    ∧ (call_xstat kernel_enoent "f" buf_regular machine_reset).1 ≠ 0
    ∧ (get_statinfo kernel_enoent "./f" "f" buf_regular machine_reset).1 = -1
    ∧ (get_statinfo kernel_enoent "./f" "f" buf_regular machine_reset).2.2.state.exit_status
        = 1
    ∧ (get_statinfo kernel_enoent "./f" "f" buf_regular
          machine_tolerant).2.2.state.exit_status = machine_tolerant.state.exit_status :=
  ⟨rfl, by decide,
   (get_statinfo_failure_path kernel_enoent "./f" "f" buf_regular machine_reset rfl
      (by decide)).1,
   (get_statinfo_failure_path kernel_enoent "./f" "f" buf_regular machine_reset rfl
      (by decide)).2.2.2.2.2.1 (by decide),
   ((get_statinfo_failure_path kernel_enoent "./f" "f" buf_regular machine_tolerant rfl
      (by decide)).2.2.2.2.2.2 (by decide)).1⟩

/-- C16 witness: in a world where `lstat` succeeds and reports a directory, the
cache ends up holding the directory's mode. -/
theorem get_statinfo_success_path_witness :
    machine_reset.state.have_stat = false
    ∧ (call_xstat kernel_directory "f" buf_regular machine_reset).1 = 0
    ∧ (get_statinfo kernel_directory "./f" "f" buf_regular machine_reset).1 = 0
    ∧ (get_statinfo kernel_directory "./f" "f" buf_regular machine_reset).2.2.state.type
        = 16877 :=
  ⟨rfl, by decide,
   (get_statinfo_success_path kernel_directory "./f" "f" buf_regular machine_reset rfl
      (by decide)).1,
   (get_statinfo_success_path kernel_directory "./f" "f" buf_regular machine_reset rfl
      (by decide)).2.2.2.2.1.trans (by decide)⟩

/-! ## Lemmas on `digest_mode` -/

theorem S_ISLNK_zero : S_ISLNK 0 = false := by decide

/-- The two places where `digest_mode` calls `get_statinfo` do the same. -/
theorem digest_mode_forced (k : Kernel) (mode : Nat) (pathname name : String)
    (pstat : struct_stat) (leaf : Bool) (m : Machine)
    (hforced : (S_ISLNK mode = true ∧ (following_links m).1 ≠ 0)
      ∨ (mode = 0 ∧ leaf = false)) :
    digest_mode k mode pathname name pstat leaf m
      = if (get_statinfo k pathname name pstat m).1 ≠ 0 then
          (0, (get_statinfo k pathname name pstat m).2.1,
            (get_statinfo k pathname name pstat m).2.2)
        else
          (1, (get_statinfo k pathname name pstat m).2.1,
            { (get_statinfo k pathname name pstat m).2.2 with
                state := { (get_statinfo k pathname name pstat m).2.2.state with
                  type := (get_statinfo k pathname name pstat m).2.1.st_mode,
                  have_type := true } }) := by
  unfold digest_mode
  rcases hforced with ⟨h1, h2⟩ | ⟨h1, h2⟩
  · have hm : mode ≠ 0 := by
      intro h0
      rw [h0, S_ISLNK_zero] at h1
      cases h1
    rw [if_pos hm, if_pos ⟨h1, h2⟩]
  · subst h1
    subst h2
    simp only [ne_eq, not_true_eq_false, if_false, Bool.false_eq_true]

theorem digest_mode_trusted (k : Kernel) (mode : Nat) (pathname name : String)
    (pstat : struct_stat) (leaf : Bool) (m : Machine) (hmode : mode ≠ 0)
    (hnot : ¬ (S_ISLNK mode = true ∧ (following_links m).1 ≠ 0)) :
    digest_mode k mode pathname name pstat leaf m
      = (1, { pstat with st_mode := mode },
          { m with state := { m.state with have_type := true, type := mode } }) := by
  unfold digest_mode
  rw [if_pos hmode, if_neg hnot]

theorem digest_mode_leaf (k : Kernel) (pathname name : String) (pstat : struct_stat)
    (m : Machine) :
    digest_mode k 0 pathname name pstat true m
      = (1, pstat, { m with state := { m.state with
          have_stat := false, have_type := false, type := 0 } }) := by
  unfold digest_mode
  simp

/-- The four ways through `digest_mode`. -/
theorem digest_mode_cases (mode : Nat) (leaf : Bool) (m : Machine) :
    ((S_ISLNK mode = true ∧ (following_links m).1 ≠ 0) ∨ (mode = 0 ∧ leaf = false))
    ∨ (mode ≠ 0 ∧ ¬ (S_ISLNK mode = true ∧ (following_links m).1 ≠ 0))
    ∨ (mode = 0 ∧ leaf = true) := by
  by_cases hm : mode = 0
  · cases leaf
    · exact Or.inl (Or.inr ⟨hm, rfl⟩)
    · exact Or.inr (Or.inr ⟨hm, rfl⟩)
  · by_cases hl : S_ISLNK mode = true ∧ (following_links m).1 ≠ 0
    · exact Or.inl (Or.inl hl)
    · exact Or.inr (Or.inl ⟨hm, hl⟩)

theorem get_statinfo_inv (k : Kernel) (pathname name : String) (p : struct_stat)
    (m : Machine) : cache_inv (get_statinfo k pathname name p m).2.2 := by
  unfold cache_inv
  cases hs : m.state.have_stat
  · by_cases h0 : (call_xstat k name p m).1 = 0
    · rw [get_statinfo_success k pathname name p m hs h0]
      intro _
      rfl
    · have hx := (call_xstat_frame k name p m).1
      rw [get_statinfo_failure k pathname name p m hs h0]
      split_ifs <;> simp [hx, hs]
  · rw [get_statinfo_cached k pathname name p m hs]
    intro _
    rfl

/-- A successful `get_statinfo` leaves `state.type` equal to the `st_mode` of
the buffer. -/
theorem get_statinfo_type (k : Kernel) (pathname name : String) (p : struct_stat)
    (m : Machine) (h : (get_statinfo k pathname name p m).1 = 0) :
    (get_statinfo k pathname name p m).2.2.state.type
      = (get_statinfo k pathname name p m).2.1.st_mode := by
  cases hs : m.state.have_stat
  · by_cases h0 : (call_xstat k name p m).1 = 0
    · rw [get_statinfo_success k pathname name p m hs h0]
    · rw [get_statinfo_failure k pathname name p m hs h0] at h
      cases h
  · rw [get_statinfo_cached k pathname name p m hs]

/-! ## Properties of `digest_mode` -/

/-- C12: for a non-zero `mode` that is not a symbolic link followed under the
current policy, `digest_mode` returns 1, issues no query and adds nothing to
the trace, sets `have_type`, stores `mode` in `state.type` (and in the
`st_mode` of the caller's buffer), and leaves `have_stat` and everything else
as it was. -/
theorem digest_mode_trusted_hint (k : Kernel) (mode : Nat) (pathname name : String)
    (pstat : struct_stat) (leaf : Bool) (m : Machine) (hmode : mode ≠ 0)
    (hnot : ¬ (S_ISLNK mode = true ∧ (following_links m).1 ≠ 0)) :
    (digest_mode k mode pathname name pstat leaf m).1 = 1
    ∧ (digest_mode k mode pathname name pstat leaf m).2.2.trace = m.trace
    ∧ xstat_results (digest_mode k mode pathname name pstat leaf m).2.2.trace
        = xstat_results m.trace
    ∧ (digest_mode k mode pathname name pstat leaf m).2.2.state.have_type = true
    ∧ (digest_mode k mode pathname name pstat leaf m).2.2.state.type = mode
    ∧ (digest_mode k mode pathname name pstat leaf m).2.2.state.have_stat
        = m.state.have_stat
    ∧ (digest_mode k mode pathname name pstat leaf m).2.2
        = { m with state := { m.state with have_type := true, type := mode } }
    ∧ (digest_mode k mode pathname name pstat leaf m).2.1
        = { pstat with st_mode := mode } := by
  rw [digest_mode_trusted k mode pathname name pstat leaf m hmode hnot]
  exact ⟨rfl, rfl, rfl, rfl, rfl, rfl, rfl, rfl⟩

/-- C12 witness: on a reset cache under `-P`, the hint of a regular file and
the hint of a symbolic link are both stored without a query, in a world where
a query would fail. -/
theorem digest_mode_trusted_hint_witness :
    (33188 : Nat) ≠ 0
    ∧ ¬ (S_ISLNK 33188 = true ∧ (following_links machine_reset).1 ≠ 0)
    ∧ (digest_mode kernel_enoent 33188 "./f" "f" buf_directory false machine_reset).1 = 1
    ∧ (digest_mode kernel_enoent 33188 "./f" "f" buf_directory false
          machine_reset).2.2.trace = []
    ∧ (digest_mode kernel_enoent 33188 "./f" "f" buf_directory false
          machine_reset).2.2.state.have_stat = false
    ∧ (digest_mode kernel_enoent 41471 "./f" "f" buf_directory false
          machine_reset).2.2.state.type = 41471 :=
  ⟨by decide, by decide,
   (digest_mode_trusted_hint kernel_enoent 33188 "./f" "f" buf_directory false
      machine_reset (by decide) (by decide)).1,
   (digest_mode_trusted_hint kernel_enoent 33188 "./f" "f" buf_directory false
      machine_reset (by decide) (by decide)).2.1,
   (digest_mode_trusted_hint kernel_enoent 33188 "./f" "f" buf_directory false
      machine_reset (by decide) (by decide)).2.2.2.2.2.1,
   (digest_mode_trusted_hint kernel_enoent 41471 "./f" "f" buf_directory false
      machine_reset (by decide) (by decide)).2.2.2.2.1⟩

/-- C13: with `have_stat` clear (as on a reset cache), when `mode` is a
symbolic link and `following_links ()` is true, or `mode` is 0 and `leaf` is
false, `digest_mode` issues exactly one query through `options.xstat`.  If the
query returns 0, `digest_mode` returns 1 with `have_stat` and `have_type` set
and `state.type` equal to the `st_mode` of the record the query stored (so its
type bits are those of the record, whatever the hint was); otherwise it
returns 0 and `have_stat`, `have_type` and `state.type` are as they were. -/
theorem digest_mode_forced_query (k : Kernel) (mode : Nat) (pathname name : String)
    (pstat : struct_stat) (leaf : Bool) (m : Machine)
    (hs : m.state.have_stat = false)
    (hforced : (S_ISLNK mode = true ∧ (following_links m).1 ≠ 0)
      ∨ (mode = 0 ∧ leaf = false)) :
    xstat_results (digest_mode k mode pathname name pstat leaf m).2.2.trace
        = xstat_results m.trace ++ [(call_xstat k name pstat m).1]
    ∧ ((call_xstat k name pstat m).1 = 0 →
        (digest_mode k mode pathname name pstat leaf m).1 = 1
        ∧ (digest_mode k mode pathname name pstat leaf m).2.1
            = (call_xstat k name pstat m).2.1
        ∧ (digest_mode k mode pathname name pstat leaf m).2.2.state.have_stat = true
        ∧ (digest_mode k mode pathname name pstat leaf m).2.2.state.have_type = true
        ∧ (digest_mode k mode pathname name pstat leaf m).2.2.state.type
            = (call_xstat k name pstat m).2.1.st_mode
        ∧ (digest_mode k mode pathname name pstat leaf m).2.2.state.type &&& S_IFMT
            = (call_xstat k name pstat m).2.1.st_mode &&& S_IFMT)
    ∧ ((call_xstat k name pstat m).1 ≠ 0 →
        (digest_mode k mode pathname name pstat leaf m).1 = 0
        ∧ (digest_mode k mode pathname name pstat leaf m).2.2.state.have_stat
            = m.state.have_stat
        ∧ (digest_mode k mode pathname name pstat leaf m).2.2.state.have_type
            = m.state.have_type
        ∧ (digest_mode k mode pathname name pstat leaf m).2.2.state.type = m.state.type) := by
  have ht := get_statinfo_trace k pathname name pstat m hs
  rw [digest_mode_forced k mode pathname name pstat leaf m hforced]
  refine ⟨?_, ?_, ?_⟩
  · split_ifs <;> exact ht
  · intro h0
    rw [get_statinfo_success k pathname name pstat m hs h0]
    simp
  · intro h0
    have hf := get_statinfo_failure_state k pathname name pstat m hs h0
    have h1 : (get_statinfo k pathname name pstat m).1 ≠ 0 := by
      rw [get_statinfo_failure k pathname name pstat m hs h0]
      show (-1 : Int) ≠ 0
      decide
    rw [if_pos h1]
    exact ⟨rfl, hf⟩

/-- C13 witness: on a reset cache with a zero hint that is not a leaf, one
query is made; where it succeeds the cache holds the directory's mode, where
it fails `digest_mode` returns 0 and the cache stays empty. -/
theorem digest_mode_forced_query_witness :
    machine_reset.state.have_stat = false
    ∧ xstat_results (digest_mode kernel_directory 0 "./f" "f" buf_regular false
          machine_reset).2.2.trace = [0]
    ∧ (digest_mode kernel_directory 0 "./f" "f" buf_regular false machine_reset).1 = 1
    ∧ (digest_mode kernel_directory 0 "./f" "f" buf_regular false
          machine_reset).2.2.state.type = 16877
    ∧ (digest_mode kernel_enoent 0 "./f" "f" buf_regular false machine_reset).1 = 0
    ∧ (digest_mode kernel_enoent 0 "./f" "f" buf_regular false
          machine_reset).2.2.state.have_type = false :=
  ⟨rfl,
   (digest_mode_forced_query kernel_directory 0 "./f" "f" buf_regular false machine_reset
      rfl (Or.inr ⟨rfl, rfl⟩)).1.trans (by decide),
   ((digest_mode_forced_query kernel_directory 0 "./f" "f" buf_regular false machine_reset
      rfl (Or.inr ⟨rfl, rfl⟩)).2.1 (by decide)).1,
   ((digest_mode_forced_query kernel_directory 0 "./f" "f" buf_regular false machine_reset
      rfl (Or.inr ⟨rfl, rfl⟩)).2.1 (by decide)).2.2.2.2.1.trans (by decide),
   ((digest_mode_forced_query kernel_enoent 0 "./f" "f" buf_regular false machine_reset
      rfl (Or.inr ⟨rfl, rfl⟩)).2.2 (by decide)).1,
   ((digest_mode_forced_query kernel_enoent 0 "./f" "f" buf_regular false machine_reset
      rfl (Or.inr ⟨rfl, rfl⟩)).2.2 (by decide)).2.2.1⟩

/-- C14: with `mode` 0 and `leaf` true, whatever the machine was,
`digest_mode` returns 1, issues no query and adds nothing to the trace, leaves
the caller's buffer alone, and leaves the cache empty: `have_stat` and
`have_type` clear and `state.type` 0. -/
theorem digest_mode_leaf_deferral (k : Kernel) (pathname name : String)
    (pstat : struct_stat) (m : Machine) :
    (digest_mode k 0 pathname name pstat true m).1 = 1
    ∧ (digest_mode k 0 pathname name pstat true m).2.1 = pstat
    ∧ (digest_mode k 0 pathname name pstat true m).2.2.trace = m.trace
    ∧ xstat_results (digest_mode k 0 pathname name pstat true m).2.2.trace
        = xstat_results m.trace
    ∧ (digest_mode k 0 pathname name pstat true m).2.2.state.have_stat = false
    ∧ (digest_mode k 0 pathname name pstat true m).2.2.state.have_type = false
    ∧ (digest_mode k 0 pathname name pstat true m).2.2.state.type = 0 := by
  rw [digest_mode_leaf]
  exact ⟨rfl, rfl, rfl, rfl, rfl, rfl, rfl⟩

/-- C18: if `have_stat` implies `have_type` before a call of `get_statinfo`,
`get_info` or `digest_mode`, it does so after the call, for all arguments and
all behaviours of the queries; and it holds of every cache with `have_stat`
clear, in particular of the reset cache. -/
theorem cache_invariant_preserved (k : Kernel) (mode : Nat) (pathname name : String)
    (p : struct_stat) (pred_ptr : pred_node) (leaf : Bool) (m : Machine)
    (hinv : cache_inv m) :
    cache_inv (get_statinfo k pathname name p m).2.2
    ∧ cache_inv (get_info k pathname name p pred_ptr m).2.2
    ∧ cache_inv (digest_mode k mode pathname name p leaf m).2.2
    ∧ (∀ m0 : Machine, m0.state.have_stat = false → cache_inv m0)
    ∧ cache_inv machine_reset := by
  refine ⟨get_statinfo_inv k pathname name p m, ?_, ?_, ?_, ?_⟩
  · unfold get_info
    split_ifs
    · exact get_statinfo_inv k pathname _ p m
    · exact get_statinfo_inv k pathname _ p m
    · exact hinv
  · rcases digest_mode_cases mode leaf m with h | ⟨h1, h2⟩ | ⟨h1, h2⟩
    · rw [digest_mode_forced k mode pathname name p leaf m h]
      split_ifs
      · exact get_statinfo_inv k pathname name p m
      · intro _
        rfl
    · rw [digest_mode_trusted k mode pathname name p leaf m h1 h2]
      intro _
      rfl
    · subst h1
      subst h2
      rw [digest_mode_leaf]
      intro h
      cases h
  · intro m0 h0 h1
    rw [h0] at h1
    cases h1
  · intro h
    cases h

/-- C18 witness: the invariant holds of a cache holding a status and is kept
by a `digest_mode` that trusts its hint. -/
theorem cache_invariant_preserved_witness :
    cache_inv machine_cached
    ∧ cache_inv (digest_mode kernel_enoent 33188 "./f" "f" buf_regular false
        machine_cached).2.2 :=
  ⟨fun _ => rfl,
   (cache_invariant_preserved kernel_enoent 33188 "./f" "f" buf_regular pred_plain false
      machine_cached (fun _ => rfl)).2.2.1⟩

/-- C20: whenever `digest_mode` returns 1, either `have_type` is set and
`state.type` equals the `st_mode` of the caller's buffer as `digest_mode`
leaves it, or `mode` was 0 with `leaf` true and the cache is empty. -/
theorem digest_mode_type_agrees (k : Kernel) (mode : Nat) (pathname name : String)
    (pstat : struct_stat) (leaf : Bool) (m : Machine)
    (hsucc : (digest_mode k mode pathname name pstat leaf m).1 = 1) :
    ((digest_mode k mode pathname name pstat leaf m).2.2.state.have_type = true
      ∧ (digest_mode k mode pathname name pstat leaf m).2.2.state.type
          = (digest_mode k mode pathname name pstat leaf m).2.1.st_mode)
    ∨ (mode = 0 ∧ leaf = true
      ∧ (digest_mode k mode pathname name pstat leaf m).2.2.state.have_stat = false
      ∧ (digest_mode k mode pathname name pstat leaf m).2.2.state.have_type = false
      ∧ (digest_mode k mode pathname name pstat leaf m).2.2.state.type = 0) := by
  rcases digest_mode_cases mode leaf m with h | ⟨h1, h2⟩ | ⟨h1, h2⟩
  · rw [digest_mode_forced k mode pathname name pstat leaf m h] at hsucc ⊢
    by_cases hg : (get_statinfo k pathname name pstat m).1 ≠ 0
    · rw [if_pos hg] at hsucc
      cases hsucc
    · rw [if_neg hg]
      exact Or.inl ⟨rfl, rfl⟩
  · rw [digest_mode_trusted k mode pathname name pstat leaf m h1 h2]
    exact Or.inl ⟨rfl, rfl⟩
  · subst h1
    subst h2
    rw [digest_mode_leaf]
    exact Or.inr ⟨rfl, rfl, rfl, rfl, rfl⟩

/-- C20 witness: a cache holding the status of a regular file, a caller's
buffer holding a directory, a symbolic-link hint under `-L`: `digest_mode`
returns 1 and `state.type` is the buffer's `st_mode`. -/
theorem digest_mode_type_agrees_witness :
    (digest_mode kernel_enoent 41471 "./f" "f" buf_directory false
        (set_follow_state SymlinkOption.SYMLINK_ALWAYS_DEREF machine_cached)).1 = 1
    ∧ ((digest_mode kernel_enoent 41471 "./f" "f" buf_directory false
          (set_follow_state SymlinkOption.SYMLINK_ALWAYS_DEREF
            machine_cached)).2.2.state.have_type = true
        ∧ (digest_mode kernel_enoent 41471 "./f" "f" buf_directory false
            (set_follow_state SymlinkOption.SYMLINK_ALWAYS_DEREF
              machine_cached)).2.2.state.type
          = (digest_mode kernel_enoent 41471 "./f" "f" buf_directory false
              (set_follow_state SymlinkOption.SYMLINK_ALWAYS_DEREF
                machine_cached)).2.1.st_mode) :=
  ⟨by decide,
   (digest_mode_type_agrees kernel_enoent 41471 "./f" "f" buf_directory false
      (set_follow_state SymlinkOption.SYMLINK_ALWAYS_DEREF machine_cached)
      (by decide)).resolve_right (by decide)⟩

/-! ## More properties of the flusher and the default action -/

/-- C17: whatever `launch` does, the launches made by one call of
`complete_pending_execs` are, in this order, those of the nodes of the tree
listed left subtree, node, right subtree that are `pred_exec`, in batch mode
and have `state.todo` set, one launch for each; at every node both subtrees
are walked, whatever the node is; a tree without such a node is walked without
any launch or other effect. -/
theorem complete_pending_execs_launch_order (k : Kernel) (t : predicate) (m : Machine) :
    launches (complete_pending_execs k t m).2.trace
        = launches m.trace ++ ((nodes t).filter pending_exec).map launch_of
    ∧ (∀ (self : pred_node) (l r : predicate) (m0 : Machine),
        complete_pending_execs k (predicate.node self l r) m0
          = (predicate.node
              (exec_step k self (complete_pending_execs k l m0).2).1
              (complete_pending_execs k l m0).1
              (complete_pending_execs k r
                (exec_step k self (complete_pending_execs k l m0).2).2).1,
             (complete_pending_execs k r
                (exec_step k self (complete_pending_execs k l m0).2).2).2))
    ∧ (∀ (n : pred_node) (m0 : Machine), pending_exec n = false → exec_step k n m0 = (n, m0))
    ∧ ((∀ n ∈ nodes t, pending_exec n = false) → complete_pending_execs k t m = (t, m)) :=
  ⟨complete_pending_execs_launches k t m,
   fun self l r m0 => complete_pending_execs_node k self l r m0,
   fun n m0 h => exec_step_idle k n m0 h,
   complete_pending_execs_idle k t m⟩

/-- C17 witness: on the example tree only the batch-mode `-exec` node with
arguments waiting is launched. -/
theorem complete_pending_execs_launch_order_witness :
    launches (complete_pending_execs kernel_eacces tree_example machine_reset).2.trace
      = [(100, ["a", "x", "y"])] :=
  (complete_pending_execs_launch_order kernel_eacces tree_example machine_reset).1.trans
    (by decide)

theorem default_prints_eq_true (pred : List pred_node) :
    default_prints pred = true ↔ ∀ n ∈ pred, n.no_default_print = false := by
  induction pred with
  | nil => simp [default_prints]
  | cons a l ih =>
    cases h : a.no_default_print <;> simp [default_prints, h, ih]

/-- C19: `default_prints` returns true exactly when no predicate of the list
linked through `pred_next` has `no_default_print` set; so it returns true for
the empty list and false when a node at any position has the flag set. -/
theorem default_prints_iff (pred : List pred_node) :
    (default_prints pred = true ↔ ∀ n ∈ pred, n.no_default_print = false)
    ∧ default_prints [] = true
    ∧ (∀ (before after : List pred_node) (n : pred_node),
        n.no_default_print = true → default_prints (before ++ n :: after) = false) := by
  refine ⟨default_prints_eq_true pred, rfl, ?_⟩
  intro before after n hn
  cases h : default_prints (before ++ n :: after)
  · rfl
  · have := (default_prints_eq_true _).1 h n (by simp)
    rw [hn] at this
    cases this

/-- C19 witness: a list of predicates none of which suppresses the default
action, and the same list with an `-exec` in the middle. -/
theorem default_prints_iff_witness :
    default_prints [pred_plain, pred_needs_stat] = true
    ∧ default_prints
        ([pred_plain] ++ exec_node PRED_FUNC.pred_exec false 1 false [] :: [pred_needs_stat])
        = false :=
  ⟨(default_prints_iff [pred_plain, pred_needs_stat]).1.2 (by decide),
   (default_prints_iff []).2.2 [pred_plain] [pred_needs_stat]
     (exec_node PRED_FUNC.pred_exec false 1 false []) rfl⟩

/-! ## Sequences of `get_info` calls -/

theorem get_info_seq_append (k : Kernel) (a b : List info_call) :
    ∀ m : Machine, get_info_seq k (a ++ b) m = get_info_seq k b (get_info_seq k a m) := by
  induction a with
  | nil => intro m; rfl
  | cons c cs ih =>
    intro m
    show get_info_seq k (cs ++ b) (get_info k c.pathname c.name c.p c.pred_ptr m).2.2 = _
    rw [ih]
    rfl

/-- A call of `get_info` that needs the status, made while `have_stat` is
clear, calls through `options.xstat`. -/
theorem get_info_needy (k : Kernel) (pathname name : String) (p : struct_stat)
    (pred_ptr : pred_node) (m : Machine) (hs : m.state.have_stat = false)
    (hneed : pred_ptr.need_stat = true
      ∨ (pred_ptr.need_type = true ∧ m.state.have_type = false)) :
    get_info k pathname name p pred_ptr m
      = get_statinfo k pathname m.state.rel_pathname p m
    ∧ xstat_results (get_info k pathname name p pred_ptr m).2.2.trace
      = xstat_results m.trace ++ [(call_xstat k m.state.rel_pathname p m).1] := by
  have he : get_info k pathname name p pred_ptr m
      = get_statinfo k pathname m.state.rel_pathname p m := by
    unfold get_info
    rcases hneed with h | ⟨h1, h2⟩
    · rw [if_pos h]
    · cases h3 : pred_ptr.need_stat <;> simp [h1, h2]
  exact ⟨he, by rw [he]; exact get_statinfo_trace k pathname _ p m hs⟩

/-- One call of `get_info` made while `have_stat` is clear either changes
nothing or makes one query; a failed query leaves the cache as it was. -/
theorem get_info_from_unknown (k : Kernel) (pathname name : String) (p : struct_stat)
    (pred_ptr : pred_node) (m : Machine) (hs : m.state.have_stat = false) :
    (get_info k pathname name p pred_ptr m).2.2 = m
    ∨ (xstat_results (get_info k pathname name p pred_ptr m).2.2.trace
          = xstat_results m.trace ++ [(call_xstat k m.state.rel_pathname p m).1]
        ∧ ((call_xstat k m.state.rel_pathname p m).1 ≠ 0 →
            (get_info k pathname name p pred_ptr m).2.2.state.have_stat = false
            ∧ (get_info k pathname name p pred_ptr m).2.2.state.have_type
                = m.state.have_type
            ∧ (get_info k pathname name p pred_ptr m).2.2.state.rel_pathname
                = m.state.rel_pathname)) := by
  by_cases hneed : pred_ptr.need_stat = true
      ∨ (pred_ptr.need_type = true ∧ m.state.have_type = false)
  · right
    obtain ⟨he, ht⟩ := get_info_needy k pathname name p pred_ptr m hs hneed
    refine ⟨ht, fun h0 => ?_⟩
    have hx := (call_xstat_frame k m.state.rel_pathname p m).1
    rw [he, get_statinfo_failure k pathname _ p m hs h0]
    split_ifs <;> simp [hx, hs]
  · left
    unfold get_info
    have h1 : ¬ pred_ptr.need_stat = true := fun h => hneed (Or.inl h)
    rw [if_neg h1]
    split_ifs with h2
    · exfalso
      apply hneed
      right
      simpa using h2
    · rfl

/-- While every query fails, the cache stays unknown. -/
theorem get_info_seq_all_failed (k : Kernel) (calls : List info_call) :
    ∀ (m : Machine) (qs : List Int),
      xstat_results (get_info_seq k calls m).trace = xstat_results m.trace ++ qs →
      m.state.have_stat = false → (∀ rv ∈ qs, rv ≠ 0) →
      (get_info_seq k calls m).state.have_stat = false
      ∧ (get_info_seq k calls m).state.have_type = m.state.have_type
      ∧ (get_info_seq k calls m).state.rel_pathname = m.state.rel_pathname := by
  induction calls with
  | nil => intro m qs _ hs _; exact ⟨hs, rfl, rfl⟩
  | cons c cs ih =>
    intro m qs hq hs hall
    simp only [get_info_seq] at hq ⊢
    rcases get_info_from_unknown k c.pathname c.name c.p c.pred_ptr m hs with he | ⟨ht, hf⟩
    · rw [he] at hq ⊢
      exact ih m qs hq hs hall
    · obtain ⟨q2, hq2, _, _⟩ := get_info_seq_inv k cs
        (get_info k c.pathname c.name c.p c.pred_ptr m).2.2
      rw [hq2, ht, List.append_assoc] at hq
      have hqs : qs = [(call_xstat k m.state.rel_pathname c.p m).1] ++ q2 :=
        (List.append_cancel_left hq).symm
      have h0 : (call_xstat k m.state.rel_pathname c.p m).1 ≠ 0 :=
        hall _ (by rw [hqs]; simp)
      obtain ⟨hs1, ht1, hr1⟩ := hf h0
      have hall2 : ∀ rv ∈ q2, rv ≠ 0 := fun rv hrv => hall rv (by rw [hqs]; simp [hrv])
      obtain ⟨r1, r2, r3⟩ := ih _ q2 hq2 hs1 hall2
      exact ⟨r1, r2.trans ht1, r3.trans hr1⟩

/-- C1 (amended): in every finite sequence of `get_info` calls, from every
machine (in particular from a reset cache) and for every behaviour of `stat`
and `lstat`, every call through `options.xstat` except possibly the last one
returned failure: at most one query succeeds and none is issued after it.  So
the number of queries is at most the number of failed queries plus one, and
it is zero when the status was already cached.  A failed query is not
remembered: starting with `have_stat` clear, as long as every query so far has
failed, `have_stat` is still clear and `have_type` is as it was, and a further
call that needs the status (or the type while `have_type` is clear) issues
the query again. -/
theorem get_info_seq_requeries_only_after_failure (k : Kernel) (calls : List info_call)
    (m : Machine) :
    ∃ qs, xstat_results (get_info_seq k calls m).trace = xstat_results m.trace ++ qs
      ∧ (∀ rv ∈ qs.dropLast, rv ≠ 0)
      ∧ qs.length ≤ qs.countP (fun rv => decide (rv ≠ 0)) + 1
      ∧ (m.state.have_stat = true → qs = [])
      ∧ (m.state.have_stat = false → (∀ rv ∈ qs, rv ≠ 0) →
          (get_info_seq k calls m).state.have_stat = false
          ∧ (get_info_seq k calls m).state.have_type = m.state.have_type
          ∧ ∀ c : info_call,
              (c.pred_ptr.need_stat = true
                ∨ (c.pred_ptr.need_type = true ∧ m.state.have_type = false)) →
              xstat_results (get_info_seq k (calls ++ [c]) m).trace
                = xstat_results m.trace ++ qs
                    ++ [(call_xstat k (get_info_seq k calls m).state.rel_pathname c.p
                          (get_info_seq k calls m)).1]) := by
  obtain ⟨qs, h1, h2, h3⟩ := get_info_seq_inv k calls m
  refine ⟨qs, h1, h2, length_le_failures_add_one qs h2, h3, ?_⟩
  intro hs hall
  obtain ⟨r1, r2, _⟩ := get_info_seq_all_failed k calls m qs h1 hs hall
  refine ⟨r1, r2, ?_⟩
  intro c hneed
  have hneed2 : c.pred_ptr.need_stat = true
      ∨ (c.pred_ptr.need_type = true ∧ (get_info_seq k calls m).state.have_type = false) := by
    rcases hneed with h | ⟨h, h2⟩
    · exact Or.inl h
    · exact Or.inr ⟨h, r2.trans h2⟩
  have hn := (get_info_needy k c.pathname c.name c.p c.pred_ptr (get_info_seq k calls m)
    r1 hneed2).2
  rw [get_info_seq_append]
  simp only [get_info_seq]
  rw [hn, h1]

/-- C1 witness: from a reset cache, in a world where `lstat` fails with
`ENOENT`, after one failed query the cache is still unknown, and a second call
that needs the status queries again. -/
theorem get_info_seq_requeries_only_after_failure_witness :
    (get_info_seq kernel_enoent [call_needs_stat] machine_reset).state.have_stat = false
    ∧ xstat_results (get_info_seq kernel_enoent ([call_needs_stat] ++ [call_needs_stat])
        machine_reset).trace = [-1, -1] := by
  obtain ⟨qs, h1, _, _, _, h5⟩ :=
    get_info_seq_requeries_only_after_failure kernel_enoent [call_needs_stat] machine_reset
  have hq : qs = [-1] := by
    have e : xstat_results (get_info_seq kernel_enoent [call_needs_stat] machine_reset).trace
        = [-1] := by decide
    rw [e] at h1
    simpa [machine_reset, xstat_results] using h1.symm
  subst hq
  obtain ⟨r1, _, r3⟩ := h5 rfl (by decide)
  refine ⟨r1, ?_⟩
  rw [r3 call_needs_stat (Or.inl rfl)]
  decide

/-- C1 counterexample: from a reset cache, in a world where `lstat` fails with
`ENOENT`, two `get_info` calls for a predicate that needs the status issue two
queries through `options.xstat`. -/
theorem get_info_seq_queries_twice :
    machine_reset.state.have_stat = false ∧ machine_reset.state.have_type = false
    ∧ xstat_results (get_info_seq kernel_enoent [call_needs_stat, call_needs_stat]
        machine_reset).trace = [-1, -1]
    ∧ ¬ ((xstat_results (get_info_seq kernel_enoent [call_needs_stat, call_needs_stat]
        machine_reset).trace).length ≤ 1) := by
  decide

end FindUtil
